import Mathlib

set_option maxRecDepth 4000

/-
  Verification development for the task-management backend
  (backend/app: schemas/task.py, services/task_service.py, services/ai_service.py).

  Conventions of the embedding:
  - Python strings are Lean `String`; character-level operations (lower, strip,
    regex character classes) are modelled on `String.data` at ASCII precision,
    matching Python behaviour on all ASCII inputs.
  - Python dicts (the parsed-command descriptors) are association lists
    `List (String × Val)`; dict assignment to an existing key is `setKey`
    (in-place value replacement), `dict.pop` is `eraseKey`.
  - The current date (datetime.now().date()) and its offsets are abstracted as
    a `Clock` of the already-formatted strings str(today), str(today+1), ...;
    `Clock.WF` records what str() of a real date always guarantees, namely
    that each string reparses under the strict %Y-%m-%d check.
  - The SQLAlchemy-backed store is a `List Task`; operations return the new
    list, and an HTTPException aborts the transaction leaving the list as it
    was (no commit is reached on the exception paths in the source).
  - SQLite LIKE (used by Task.title.contains) is case-insensitive on ASCII,
    so search_tasks_by_title is modelled as case-insensitive substring match.
-/

namespace TaskApp

-- ===== Python-style string primitives (ASCII semantics) =====

def lowerChar (ch : Char) : Char :=
  if 65 ≤ ch.toNat ∧ ch.toNat ≤ 90 then Char.ofNat (ch.toNat + 32) else ch

def lowerL (l : List Char) : List Char := l.map lowerChar

def lowerS (s : String) : String := ⟨lowerL s.data⟩

-- whitespace recognized by str.strip() and the regex class backslash-s
def isSpaceChar (ch : Char) : Bool :=
  ch = ' ' || ch = '\t' || ch = '\n' || ch = '\r' || ch = '\x0b' || ch = '\x0c'

def trimL (l : List Char) : List Char :=
  ((l.dropWhile isSpaceChar).reverse.dropWhile isSpaceChar).reverse

def trimS (s : String) : String := ⟨trimL s.data⟩

-- needle-is-prefix test (first argument is the needle)
def isPre : List Char → List Char → Bool
  | [], _ => true
  | _ :: _, [] => false
  | a :: as, b :: bs => a = b && isPre as bs

-- Python substring containment: needle in haystack
def containsL (n : List Char) : List Char → Bool
  | [] => n.isEmpty
  | l@(_ :: t) => isPre n l || containsL n t

def containsS (n s : String) : Bool := containsL n.data s.data

-- re.sub removing every bracket character, as in the date normalizer
def removeBracketsL (l : List Char) : List Char :=
  l.filter (fun ch => ch ≠ '[' && ch ≠ ']')

def isWordChar (ch : Char) : Bool := ch.isAlphanum || ch = '_'

-- numeric value of an ASCII digit character
def dv (ch : Char) : Nat := ch.toNat - 48

-- Python f-string "{n:02d}" for a natural number
def pad2 (n : Nat) : String :=
  if n < 100 then ⟨[Nat.digitChar (n / 10), Nat.digitChar (n % 10)]⟩
  else ⟨Nat.toDigits 10 n⟩

-- Python repr of a list of strings, e.g. ['In Progress']
def pyListRepr (xs : List String) : String :=
  "[" ++ String.intercalate ", " (xs.map (fun s => "\x27" ++ s ++ "\x27")) ++ "]"

-- ===== JSON-ish values held in a parsed-command dict =====

inductive Val where
  | vnull : Val
  | vbool : Bool → Val
  | vint : Int → Val
  | vfloat : Rat → Val
  | vstr : String → Val
deriving DecidableEq

-- Python str() of such a value (float formatting differs from CPython in
-- digits only; every classification made of it downstream agrees)
def pyStr : Val → String
  | .vnull => "None"
  | .vbool true => "True"
  | .vbool false => "False"
  | .vint n => toString n
  | .vfloat q => toString q
  | .vstr s => s

-- Python truthiness of such a value
def truthy : Val → Bool
  | .vnull => false
  | .vbool b => b
  | .vint n => n ≠ 0
  | .vfloat q => q ≠ 0
  | .vstr s => ¬s.isEmpty

abbrev Desc := List (String × Val)

def lookupKey (k : String) : Desc → Option Val
  | [] => none
  | (k', v) :: d => if k' = k then some v else lookupKey k d

-- dict assignment to an existing key: value replaced in place
def setKey (k : String) (v : Val) (d : Desc) : Desc :=
  d.map (fun p => if p.1 = k then (k, v) else p)

-- dict.pop of a key
def eraseKey (k : String) (d : Desc) : Desc :=
  d.filter (fun p => p.1 ≠ k)

-- ===== schemas/task.py =====

inductive TaskState where
  | NOT_STARTED : TaskState
  | IN_PROGRESS : TaskState
  | COMPLETED : TaskState
deriving DecidableEq

-- the .value string of each enum member
def TaskState.value : TaskState → String
  | .NOT_STARTED => "Not Started"
  | .IN_PROGRESS => "In Progress"
  | .COMPLETED => "Completed"

-- TaskState(x): value-based enum construction, ValueError modelled as none
def TaskState.ofValue : String → Option TaskState
  | "Not Started" => some .NOT_STARTED
  | "In Progress" => some .IN_PROGRESS
  | "Completed" => some .COMPLETED
  | _ => none

def TaskState.get_valid_transitions : TaskState → List TaskState
  | .NOT_STARTED => [.IN_PROGRESS]
  | .IN_PROGRESS => [.COMPLETED]
  | .COMPLETED => []

def TaskState.is_valid_transition (fromState toState : TaskState) : Bool :=
  (TaskState.get_valid_transitions fromState).contains toState

inductive TaskPriority where
  | LOW : TaskPriority
  | MEDIUM : TaskPriority
  | HIGH : TaskPriority
  | URGENT : TaskPriority
deriving DecidableEq

def TaskPriority.value : TaskPriority → String
  | .LOW => "LOW"
  | .MEDIUM => "MEDIUM"
  | .HIGH => "HIGH"
  | .URGENT => "URGENT"

def TaskPriority.ofValue : String → Option TaskPriority
  | "LOW" => some .LOW
  | "MEDIUM" => some .MEDIUM
  | "HIGH" => some .HIGH
  | "URGENT" => some .URGENT
  | _ => none

-- The ORM Task row (models/task.py); date/time columns are carried as their
-- validated string forms, timestamps as abstract ticks.
structure Task where
  id : Nat
  title : String
  description : Option String
  state : TaskState
  priority : TaskPriority
  category : Option String
  scheduled_date : Option String
  scheduled_time : Option String
  due_date : Option String
  due_time : Option String
  reminder_time : Option Int
  created_at : Nat
  updated_at : Nat
  user_id : Nat
deriving DecidableEq

-- TaskCreate (= TaskBase): no state field exists at creation time
structure TaskCreate where
  title : String
  description : Option String := none
  priority : TaskPriority := .MEDIUM
  category : Option String := none
  scheduled_date : Option String := none
  scheduled_time : Option String := none
  due_date : Option String := none
  due_time : Option String := none
  reminder_time : Option Int := none
deriving DecidableEq

structure TaskUpdate where
  title : Option String := none
  description : Option String := none
  state : Option TaskState := none
  priority : Option TaskPriority := none
  category : Option String := none
  scheduled_date : Option String := none
  scheduled_time : Option String := none
  due_date : Option String := none
  due_time : Option String := none
  reminder_time : Option Int := none
deriving DecidableEq

structure HTTPError where
  status_code : Nat
  detail : String
deriving DecidableEq

-- str() of a fastapi HTTPException
def HTTPError.str (e : HTTPError) : String :=
  toString e.status_code ++ ": " ++ e.detail

-- ===== services/task_service.py =====

-- TaskStateService.validate_state_transition
def validate_state_transition (current_state new_state : TaskState) : Bool :=
  TaskState.is_valid_transition current_state new_state

-- TaskStateService.get_allowed_transitions
def get_allowed_transitions (current_state : TaskState) : List TaskState :=
  TaskState.get_valid_transitions current_state

-- primary keys are assigned by the database, one more than the largest in use
def nextId (db : List Task) : Nat :=
  (db.map Task.id).foldr max 0 + 1

-- TaskService.create_task: state is hard-coded to NOT_STARTED
def create_task (db : List Task) (task : TaskCreate) (user_id : Nat) : Task × List Task :=
  let db_task : Task :=
    { id := nextId db
      title := task.title
      description := task.description
      state := TaskState.NOT_STARTED
      priority := task.priority
      category := task.category
      scheduled_date := task.scheduled_date
      scheduled_time := task.scheduled_time
      due_date := task.due_date
      due_time := task.due_time
      reminder_time := task.reminder_time
      created_at := 0
      updated_at := 0
      user_id := user_id }
  (db_task, db ++ [db_task])

-- TaskService.get_task: first row with matching id AND matching owner
def get_task (db : List Task) (task_id user_id : Nat) : Option Task :=
  db.find? (fun t => t.id = task_id && t.user_id = user_id)

-- TaskService.get_tasks: all rows of the user, optionally filtered by state
def get_tasks (db : List Task) (user_id : Nat) (state_filter : Option TaskState) : List Task :=
  db.filter (fun t =>
    t.user_id = user_id &&
      match state_filter with
      | none => true
      | some st => t.state = st)

-- the HTTPException detail raised on an invalid transition
def invalidTransitionDetail (cur new : TaskState) : String :=
  "Invalid state transition from \x27" ++ cur.value ++ "\x27 to \x27" ++ new.value ++
    "\x27. Allowed transitions: " ++
    pyListRepr ((get_allowed_transitions cur).map TaskState.value)

def notFoundErr : HTTPError := { status_code := 404, detail := "Task not found" }

-- field update guarded by "is not None", keeping the old value otherwise
def updOpt {α : Type} (new old : Option α) : Option α :=
  match new with
  | some x => some x
  | none => old

-- the non-state field assignments of TaskService.update_task
def applyFields (t : Task) (u : TaskUpdate) : Task :=
  { t with
    title := u.title.getD t.title
    description := updOpt u.description t.description
    priority := u.priority.getD t.priority
    category := updOpt u.category t.category
    scheduled_date := updOpt u.scheduled_date t.scheduled_date
    scheduled_time := updOpt u.scheduled_time t.scheduled_time
    due_date := updOpt u.due_date t.due_date
    due_time := updOpt u.due_time t.due_time
    reminder_time := updOpt u.reminder_time t.reminder_time }

-- row replacement performed by the commit after a successful update
def replaceTask (db : List Task) (task_id user_id : Nat) (t' : Task) : List Task :=
  db.map (fun t => if t.id = task_id && t.user_id = user_id then t' else t)

-- TaskService.update_task; an HTTPException aborts before commit, so the
-- stored rows are returned unchanged on the error paths
def update_task (db : List Task) (task_id : Nat) (task_update : TaskUpdate)
    (user_id : Nat) : Except HTTPError Task × List Task :=
  match get_task db task_id user_id with
  | none => (Except.error notFoundErr, db)
  | some db_task =>
    let t1 := applyFields db_task task_update
    match task_update.state with
    | none => (Except.ok t1, replaceTask db task_id user_id t1)
    | some ns =>
      if validate_state_transition db_task.state ns then
        let t2 := { t1 with state := ns }
        (Except.ok t2, replaceTask db task_id user_id t2)
      else
        (Except.error { status_code := 400,
                        detail := invalidTransitionDetail db_task.state ns }, db)

-- TaskService.delete_task
def delete_task (db : List Task) (task_id user_id : Nat) :
    Except HTTPError Unit × List Task :=
  match get_task db task_id user_id with
  | none => (Except.error notFoundErr, db)
  | some _ =>
    (Except.ok (), db.filter (fun t => ¬(t.id = task_id && t.user_id = user_id)))

-- TaskService.search_tasks_by_title: Task.title.contains(pattern) compiles to
-- SQL LIKE, which is ASCII case-insensitive under the configured SQLite engine
def search_tasks_by_title (db : List Task) (title_pattern : String)
    (user_id : Nat) : List Task :=
  db.filter (fun t =>
    t.user_id = user_id && containsL (lowerL title_pattern.data) (lowerL t.title.data))

-- ===== ai_service.py: the Normalizer (_normalize_parsed_command) =====

-- datetime.now().date() and its offsets, pre-formatted by str(); WF below
-- states the properties str() of a date guarantees
structure Clock where
  todayStr : String
  tomorrowStr : String
  yesterdayStr : String
  nextWeekStr : String
  nextMonthStr : String
deriving DecidableEq

def isLeapYear (y : Nat) : Bool :=
  y % 4 = 0 && (y % 100 ≠ 0 || y % 400 = 0)

def daysInMonth (y m : Nat) : Nat :=
  if m = 2 then (if isLeapYear y then 29 else 28)
  else if m = 4 || m = 6 || m = 9 || m = 11 then 30
  else 31

-- the value constraints datetime.strptime(s, "%Y-%m-%d") enforces after its
-- regex: 4-digit year at least 1, 1-2 digit month in 1..12, 1-2 digit day
-- within the month
def ymdOk (y m d : Nat) : Bool :=
  1 ≤ y && 1 ≤ m && m ≤ 12 && 1 ≤ d && d ≤ daysInMonth y m

def isStrptimeDate (s : String) : Bool :=
  match s.data with
  | [y1, y2, y3, y4, '-', m1, m2, '-', d1, d2] =>
    y1.isDigit && y2.isDigit && y3.isDigit && y4.isDigit && m1.isDigit && m2.isDigit &&
      d1.isDigit && d2.isDigit &&
      ymdOk (dv y1 * 1000 + dv y2 * 100 + dv y3 * 10 + dv y4) (dv m1 * 10 + dv m2)
        (dv d1 * 10 + dv d2)
  | [y1, y2, y3, y4, '-', m1, '-', d1, d2] =>
    y1.isDigit && y2.isDigit && y3.isDigit && y4.isDigit && m1.isDigit &&
      d1.isDigit && d2.isDigit &&
      ymdOk (dv y1 * 1000 + dv y2 * 100 + dv y3 * 10 + dv y4) (dv m1) (dv d1 * 10 + dv d2)
  | [y1, y2, y3, y4, '-', m1, m2, '-', d1] =>
    y1.isDigit && y2.isDigit && y3.isDigit && y4.isDigit && m1.isDigit && m2.isDigit &&
      d1.isDigit &&
      ymdOk (dv y1 * 1000 + dv y2 * 100 + dv y3 * 10 + dv y4) (dv m1 * 10 + dv m2) (dv d1)
  | [y1, y2, y3, y4, '-', m1, '-', d1] =>
    y1.isDigit && y2.isDigit && y3.isDigit && y4.isDigit && m1.isDigit && d1.isDigit &&
      ymdOk (dv y1 * 1000 + dv y2 * 100 + dv y3 * 10 + dv y4) (dv m1) (dv d1)
  | _ => false

def Clock.WF (c : Clock) : Prop :=
  isStrptimeDate c.todayStr = true ∧ isStrptimeDate c.tomorrowStr = true ∧
    isStrptimeDate c.yesterdayStr = true ∧ isStrptimeDate c.nextWeekStr = true ∧
    isStrptimeDate c.nextMonthStr = true

instance (c : Clock) : Decidable c.WF := by
  unfold Clock.WF; infer_instance

-- normalize_date_field after the cleanup of its argument: returns the
-- string to store, or None to drop
def normalize_date_str (c : Clock) (date_str : String) : Option String :=
  if date_str ∈ (["yyyy-mm-dd", "yyyy/mm/dd", "[yyyy-mm-dd]"] : List String) then none
  else if date_str ∈ (["today", "[today]"] : List String) then some c.todayStr
  else if date_str ∈ (["tomorrow", "[tomorrow]"] : List String) then some c.tomorrowStr
  else if date_str ∈ (["yesterday", "[yesterday]"] : List String) then some c.yesterdayStr
  else if containsS "next week" date_str then some c.nextWeekStr
  else if containsS "next month" date_str then some c.nextMonthStr
  else if isStrptimeDate date_str then some date_str
  else none

-- normalize_date_field: str, lower, strip, bracket removal, then the above
def normalize_date_field (c : Clock) (date_value : Val) : Option String :=
  if ¬truthy date_value then none
  else normalize_date_str c ⟨removeBracketsL (trimL (lowerL (pyStr date_value).data))⟩

-- the re.match check for a kept time: 1-2 digit hour, colon, 2-digit minute
def isTimeShape (s : String) : Bool :=
  match s.data with
  | [a, b, ':', d1, d2] => a.isDigit && b.isDigit && d1.isDigit && d2.isDigit
  | [a, ':', d1, d2] => a.isDigit && d1.isDigit && d2.isDigit
  | _ => false

def timeMappings : List (String × String) :=
  [("morning", "09:00"), ("afternoon", "14:00"), ("evening", "18:00"),
   ("night", "20:00"), ("noon", "12:00"), ("midnight", "00:00")]

def lookupTimeMapping (s : String) : Option String :=
  (timeMappings.find? (fun p => p.1 = s)).map Prod.snd

-- normalize_time_field after the cleanup of its argument
def normalize_time_str (time_str : String) : Option String :=
  if time_str ∈ (["hh:mm", "hh:mm:ss", "[hh:mm]"] : List String) then none
  else
    match lookupTimeMapping time_str with
    | some t => some t
    | none => if isTimeShape time_str then some time_str else none

-- normalize_time_field: str, lower, strip, then the above
def normalize_time_field (time_value : Val) : Option String :=
  if ¬truthy time_value then none
  else normalize_time_str ⟨trimL (lowerL (pyStr time_value).data)⟩

-- applying one normalized-or-dropped result to the dict
def normFieldApply (k : String) (r : Option String) (d : Desc) : Desc :=
  match r with
  | some s => if s.isEmpty then eraseKey k d else setKey k (Val.vstr s) d
  | none => eraseKey k d

-- the shared per-key pattern: if the key is present, replace its value with
-- the normalized string or pop the key
def normField (k : String) (f : Val → Option String) (d : Desc) : Desc :=
  match lookupKey k d with
  | none => d
  | some v => normFieldApply k (f v) d

def priority_map : List (String × String) :=
  [("low", "LOW"), ("medium", "MEDIUM"), ("high", "HIGH"), ("urgent", "URGENT")]

def lookupPriorityMap (s : String) : Option String :=
  (priority_map.find? (fun p => p.1 = s)).map Prod.snd

-- the effect of the priority-uppercasing step for a present value
def normPriorityApply (v : Val) (d : Desc) : Desc :=
  if truthy v then
    match lookupPriorityMap (lowerS (pyStr v)) with
    | some up => setKey "priority" (Val.vstr up) d
    | none => d
  else d

-- the priority-uppercasing step of the normalizer
def normPriority (d : Desc) : Desc :=
  match lookupKey "priority" d with
  | none => d
  | some v => normPriorityApply v d

-- AIService._normalize_parsed_command, steps in source order
def normalize_parsed_command (c : Clock) (parsed_command : Desc) : Desc :=
  normField "due_time" normalize_time_field
    (normField "scheduled_time" normalize_time_field
      (normField "date_filter" (normalize_date_field c)
        (normField "due_date" (normalize_date_field c)
          (normField "scheduled_date" (normalize_date_field c)
            (normPriority parsed_command)))))

-- ===== ai_service.py: the Pattern Interpreter (_parse_with_patterns) =====
-- The regular expressions of the source are embedded with Python re.search
-- semantics: leftmost match position, alternation in written order, greedy
-- and lazy quantifiers with backtracking, dot excluding newline, dollar
-- matching at the end or before a final newline.

-- generic leftmost search: try the matcher at every position, left to right
def searchAt {α : Type} (m : List Char → Option α) : List Char → Option α
  | [] => m []
  | l@(_ :: t) =>
    match m l with
    | some r => some r
    | none => searchAt m t

-- dollar anchor
def atEnd (l : List Char) : Bool := l.isEmpty || l = ['\n']

-- lazy group (.+?): smallest non-empty newline-free prefix whose remainder
-- satisfies the tail
def lazyGroup (tail : List Char → Bool) : List Char → List Char → Option (List Char)
  | _, [] => none
  | acc, ch :: rest =>
    if ch = '\n' then none
    else if tail rest then some (acc ++ [ch])
    else lazyGroup tail (acc ++ [ch]) rest

-- the rests reachable by one-or-more-whitespace with greedy backtracking,
-- longest consumption first
def wsSplits (r : List Char) : List (List Char) :=
  let n := (r.takeWhile isSpaceChar).length
  (List.range n).map (fun i => r.drop (n - i))

def tryAll {α : Type} (f : List Char → Option α) : List (List Char) → Option α
  | [] => none
  | x :: xs =>
    match f x with
    | some g => some g
    | none => tryAll f xs

-- lazy group preceded by one-or-more whitespace (greedy, with backtracking)
def wsLazyAux (tail : List Char → Bool) (r : List Char) : Nat → Option (List Char)
  | 0 => none
  | k + 1 =>
    match lazyGroup tail [] (r.drop (k + 1)) with
    | some g => some g
    | none => wsLazyAux tail r k

def wsLazy (tail : List Char → Bool) (r : List Char) : Option (List Char) :=
  wsLazyAux tail r (r.takeWhile isSpaceChar).length

-- --- time extraction patterns ---

-- the optional trailing (am|pm) group after optional whitespace
def reqAmPm (l : List Char) : Option Bool :=
  let r := l.dropWhile isSpaceChar
  if isPre "am".data r then some false
  else if isPre "pm".data r then some true
  else none

def matchSpec2 : List Char → Option (Nat × Nat × List Char)
  | c1 :: c2 :: ':' :: c3 :: c4 :: rest =>
    if c1.isDigit && c2.isDigit && c3.isDigit && c4.isDigit then
      some (dv c1 * 10 + dv c2, dv c3 * 10 + dv c4, rest)
    else none
  | _ => none

def matchSpec1 : List Char → Option (Nat × Nat × List Char)
  | c1 :: ':' :: c3 :: c4 :: rest =>
    if c1.isDigit && c3.isDigit && c4.isDigit then
      some (dv c1, dv c3 * 10 + dv c4, rest)
    else none
  | _ => none

-- one position of pattern 1-2digit colon 2digit optional am or pm
def matchSpecAt (l : List Char) : Option (Nat × Nat × Option Bool) :=
  match matchSpec2 l with
  | some (h, m, rest) => some (h, m, reqAmPm rest)
  | none =>
    match matchSpec1 l with
    | some (h, m, rest) => some (h, m, reqAmPm rest)
    | none => none

-- one position of pattern 1-2digit then required am or pm: the greedy
-- two-digit hour is tried first, then the one-digit backtrack
def matchHourAPAt : List Char → Option (Nat × Bool)
  | [] => none
  | c1 :: rest1 =>
    if c1.isDigit then
      match rest1 with
      | [] => none
      | c2 :: rest2 =>
        if c2.isDigit then
          match reqAmPm rest2 with
          | some pm => some (dv c1 * 10 + dv c2, pm)
          | none =>
            match reqAmPm rest1 with
            | some pm => some (dv c1, pm)
            | none => none
        else
          match reqAmPm rest1 with
          | some pm => some (dv c1, pm)
          | none => none
    else none

-- the am/pm hour adjustment of the source
def adjustHour (h : Nat) (ap : Option Bool) : Nat :=
  if ap = some true && h < 12 then h + 12
  else if ap = some false && h = 12 then 0
  else h

-- the time_patterns loop, first pattern with any match wins
def timeExtract (cl : List Char) : Option String :=
  match searchAt matchSpecAt cl with
  | some (h, m, ap) => some (pad2 (adjustHour h ap) ++ ":" ++ pad2 m)
  | none =>
    match searchAt matchHourAPAt cl with
    | some (h, pm) => some (pad2 (adjustHour h (some pm)) ++ ":00")
    | none =>
      if containsL "morning".data cl then some "09:00"
      else if containsL "afternoon".data cl then some "14:00"
      else if containsL "evening".data cl then some "18:00"
      else if containsL "night".data cl then some "20:00"
      else none

-- --- title extraction patterns of the schedule branch ---

def schedTailKws : List String := ["at", "on", "for", "tomorrow", "today"]

-- tail of title pattern 1: a literal space then one of the keywords
def p1Tail (r : List Char) : Bool :=
  match r with
  | ' ' :: r' => schedTailKws.any (fun k => isPre k.data r')
  | _ => false

def stripKw1 (l : List Char) : Option (List Char) :=
  if isPre "schedule ".data l then some (l.drop 9)
  else if isPre "plan ".data l then some (l.drop 5)
  else if isPre "book ".data l then some (l.drop 5)
  else none

def p1At (l : List Char) : Option (List Char) :=
  match stripKw1 l with
  | some r => lazyGroup p1Tail [] r
  | none => none

-- tail of title pattern 2: whitespace then a keyword, or the dollar anchor
def p2Tail (r : List Char) : Bool :=
  (!(r.takeWhile isSpaceChar).isEmpty &&
    schedTailKws.any (fun k => isPre k.data (r.dropWhile isSpaceChar))) ||
  atEnd r

def p2At (l : List Char) : Option (List Char) :=
  if isPre "remind me to ".data l then lazyGroup p2Tail [] (l.drop 13) else none

def stripKw3 (l : List Char) : Option (List Char) :=
  if isPre "schedule ".data l then some (l.drop 9)
  else if isPre "plan ".data l then some (l.drop 5)
  else if isPre "remind me to ".data l then some (l.drop 13)
  else if isPre "book ".data l then some (l.drop 5)
  else none

-- greedy (.+): the maximal newline-free run, required non-empty
def dotPlus (l : List Char) : Option (List Char) :=
  let g := l.takeWhile (fun ch => ch ≠ '\n')
  if g.isEmpty then none else some g

def p3At (l : List Char) : Option (List Char) :=
  match stripKw3 l with
  | some r => dotPlus r
  | none => none

-- the title_patterns loop: first pattern with a match wins
def titleRaw (cl : List Char) : Option (List Char) :=
  match searchAt p1At cl with
  | some g => some g
  | none =>
    match searchAt p2At cl with
    | some g => some g
    | none => searchAt p3At cl

-- --- fallback title: word-boundary removal of scheduling words ---

def boundaryAfter (l : List Char) : Bool :=
  match l with
  | [] => true
  | ch :: _ => !isWordChar ch

def fbWords : List String :=
  ["schedule", "plan", "remind me to", "book", "at", "on", "for"]

-- first keyword matching at this position with a word boundary after it;
-- returns the rest of the input
def dropKw : List String → List Char → Option (List Char)
  | [], _ => none
  | w :: ws, l =>
    if isPre w.data l && boundaryAfter (l.drop w.data.length) then some (l.drop w.data.length)
    else dropKw ws l

-- re.sub scan; the Bool records whether the previous character of the
-- original string was a word character (for the opening word boundary);
-- the fuel is at least the input length, and every step consumes at least
-- one character so it never runs out
def wordSubAux : Nat → Bool → List Char → List Char
  | 0, _, _ => []
  | fuel + 1, prevWord, l =>
    match l with
    | [] => []
    | ch :: rest =>
      if !prevWord then
        match dropKw fbWords l with
        | some r => wordSubAux fuel true r
        | none => ch :: wordSubAux fuel (isWordChar ch) rest
      else ch :: wordSubAux fuel (isWordChar ch) rest

def wordSub (l : List Char) : List Char := wordSubAux l.length false l

def fallbackTitle (cl : List Char) : String :=
  let t := trimL (wordSub cl)
  if t.isEmpty then "Scheduled task" else ⟨t⟩

def extractTitle (cl : List Char) : String :=
  match titleRaw cl with
  | some g =>
    let s := trimL g
    if s.isEmpty then fallbackTitle cl else ⟨s⟩
  | none => fallbackTitle cl

def extractPriority (cl : List Char) : String :=
  if ["urgent", "asap", "immediately"].any (fun w => containsL w.data cl) then "URGENT"
  else if ["important", "high"].any (fun w => containsL w.data cl) then "HIGH"
  else if ["low", "minor"].any (fun w => containsL w.data cl) then "LOW"
  else "MEDIUM"

-- the schedule/appointment branch, dict keys in insertion order
def scheduleBranch (c : Clock) (cl : List Char) : Desc :=
  [("action", Val.vstr "create"), ("confidence", Val.vfloat 0.8),
   ("task_title", Val.vstr (extractTitle cl))]
  ++ (match timeExtract cl with
      | some t => [("due_time", Val.vstr t)]
      | none => [])
  ++ (if containsL "today".data cl then [("due_date", Val.vstr c.todayStr)]
      else if containsL "tomorrow".data cl then [("due_date", Val.vstr c.tomorrowStr)]
      else [])
  ++ [("priority", Val.vstr (extractPriority cl))]
  ++ (if containsL "remind".data cl then [("reminder_time", Val.vint 15)] else [])

-- the show/list branch
def listBranch (c : Clock) (cl : List Char) : Desc :=
  [("action", Val.vstr "list"), ("confidence", Val.vfloat 0.8)]
  ++ (if containsL "today".data cl || containsL "today\x27s".data cl then
        [("date_filter", Val.vstr c.todayStr)]
      else if containsL "tomorrow".data cl || containsL "tomorrow\x27s".data cl then
        [("date_filter", Val.vstr c.tomorrowStr)]
      else [])
  ++ (if containsL "completed".data cl then [("state_filter", Val.vstr "Completed")]
      else if containsL "progress".data cl then [("state_filter", Val.vstr "In Progress")]
      else if containsL "pending".data cl || containsL "not started".data cl then
        [("state_filter", Val.vstr "Not Started")]
      else [])

-- --- create patterns of the explicit add/create/new/make branch ---

def firstKw : List String → List Char → Option (List Char)
  | [], _ => none
  | w :: ws, l =>
    if isPre w.data l then some (l.drop w.data.length) else firstKw ws l

def cp1To (x : List Char) : Option (List Char) :=
  if isPre "to".data x then
    match tryAll dotPlus (wsSplits (x.drop 2)) with
    | some g => some g
    | none => dotPlus x
  else dotPlus x

def cp1Task (x : List Char) : Option (List Char) :=
  if isPre "task".data x then
    match tryAll cp1To (wsSplits (x.drop 4)) with
    | some g => some g
    | none => cp1To x
  else cp1To x

def cp1A (x : List Char) : Option (List Char) :=
  if isPre "a".data x then
    match tryAll cp1Task (wsSplits (x.drop 1)) with
    | some g => some g
    | none => cp1Task x
  else cp1Task x

def cp1At (l : List Char) : Option (List Char) :=
  match firstKw ["add", "create", "new", "make"] l with
  | some r => tryAll cp1A (wsSplits r)
  | none => none

def cp2TailOk (r : List Char) : Bool :=
  !(r.takeWhile isSpaceChar).isEmpty &&
    (isPre "task".data (r.dropWhile isSpaceChar) || isPre "todo".data (r.dropWhile isSpaceChar))

def cp2Greedy (l : List Char) : Nat → Option (List Char)
  | 0 => none
  | k + 1 => if cp2TailOk (l.drop (k + 1)) then some (l.take (k + 1)) else cp2Greedy l k

def cp2At (l : List Char) : Option (List Char) :=
  cp2Greedy l (l.takeWhile (fun ch => ch ≠ '\n')).length

def createExtract (cl : List Char) : Option String :=
  if ["add", "create", "new", "make"].any (fun w => containsL w.data cl) then
    match searchAt cp1At cl with
    | some g => some ⟨trimL g⟩
    | none =>
      match searchAt cp2At cl with
      | some g => some ⟨trimL g⟩
      | none => none
  else none

-- --- update-state and delete patterns ---

-- tail of the trailing-phrase patterns: optional whitespace-task, then dollar
def usTailOk (r : List Char) : Bool :=
  atEnd r ||
    (!(r.takeWhile isSpaceChar).isEmpty &&
      isPre "task".data (r.dropWhile isSpaceChar) &&
      atEnd ((r.dropWhile isSpaceChar).drop 4))

def usKwAt (l : List Char) : Option (List Char) :=
  if isPre "start".data l then some (l.drop 5)
  else if isPre "begin".data l then some (l.drop 5)
  else if isPre "working on".data l then some (l.drop 10)
  else none

def usAt (l : List Char) : Option (List Char) :=
  match usKwAt l with
  | some r => wsLazy usTailOk r
  | none => none

def markDoneAt (x : List Char) : Option (List Char) :=
  if isPre "completed".data x then some (x.drop 9)
  else if isPre "done".data x then some (x.drop 4)
  else none

def markAfterWs (x : List Char) : Option (List Char) :=
  if isPre "as".data x then
    match tryAll markDoneAt (wsSplits (x.drop 2)) with
    | some r => some r
    | none => markDoneAt x
  else markDoneAt x

def compKwAt (l : List Char) : Option (List Char) :=
  if isPre "complete".data l then some (l.drop 8)
  else if isPre "finish".data l then some (l.drop 6)
  else if isPre "mark".data l then tryAll markAfterWs (wsSplits (l.drop 4))
  else if isPre "done".data l then some (l.drop 4)
  else none

def compAt (l : List Char) : Option (List Char) :=
  match compKwAt l with
  | some r => wsLazy usTailOk r
  | none => none

def delKwAt (l : List Char) : Option (List Char) :=
  if isPre "delete".data l then some (l.drop 6)
  else if isPre "remove".data l then some (l.drop 6)
  else none

def delAt (l : List Char) : Option (List Char) :=
  match delKwAt l with
  | some r => wsLazy usTailOk r
  | none => none

-- --- the branch structure of _parse_with_patterns ---

def greetings : List String :=
  ["hi", "hello", "hey", "good morning", "good afternoon", "good evening"]

def help_words : List String := ["help", "what can you do", "how do you work", "commands"]

def schedule_words : List String :=
  ["schedule", "plan", "appointment", "meeting", "remind", "at", "on", "book"]

def list_words : List String :=
  ["show", "list", "what\x27s", "schedule", "agenda", "today", "tomorrow", "view"]

def task_keywords : List String :=
  ["add", "create", "new", "make", "start", "begin", "complete", "finish", "done",
   "delete", "remove", "show", "list", "view", "see", "task", "todo", "schedule", "plan"]

def chatDesc (m : String) (conf : Rat) : Desc :=
  [("action", Val.vstr "chat"), ("message", Val.vstr m), ("confidence", Val.vfloat conf)]

def startResult (cl : List Char) : Option Desc :=
  if ["start", "begin", "working"].any (fun w => containsL w.data cl) then
    (searchAt usAt cl).map (fun g =>
      [("action", Val.vstr "update_state"), ("task_title", Val.vstr ⟨trimL g⟩),
       ("new_state", Val.vstr "In Progress"), ("confidence", Val.vfloat 0.9)])
  else none

def completeResult (cl : List Char) : Option Desc :=
  if ["complete", "finish", "done"].any (fun w => containsL w.data cl) then
    (searchAt compAt cl).map (fun g =>
      [("action", Val.vstr "update_state"), ("task_title", Val.vstr ⟨trimL g⟩),
       ("new_state", Val.vstr "Completed"), ("confidence", Val.vfloat 0.9)])
  else none

def deleteResult (cl : List Char) : Option Desc :=
  (searchAt delAt cl).map (fun g =>
    [("action", Val.vstr "delete"), ("task_title", Val.vstr ⟨trimL g⟩),
     ("confidence", Val.vfloat 0.8)])

-- AIService._parse_with_patterns: the branch dispatch on the cleaned text
def patternsBody (c : Clock) (cl : List Char) : Desc :=
  if greetings.any (fun g => cl = g.data) then chatDesc "greeting" 0.9
  else if help_words.any (fun w => containsL w.data cl) then chatDesc "help" 0.9
  else if schedule_words.any (fun w => containsL w.data cl) then scheduleBranch c cl
  else if list_words.any (fun w => containsL w.data cl) then listBranch c cl
  else if !task_keywords.any (fun w => containsL w.data cl) then chatDesc "general" 0.8
  else
    match createExtract cl with
    | some t =>
      [("action", Val.vstr "create"), ("task_title", Val.vstr t),
       ("confidence", Val.vfloat 0.8)]
    | none =>
      match startResult cl with
      | some d => d
      | none =>
        match completeResult cl with
        | some d => d
        | none =>
          match deleteResult cl with
          | some d => d
          | none => chatDesc "unclear" 0.5

-- AIService._parse_with_patterns: command.lower().strip(), then the branches
def parse_with_patterns (c : Clock) (command : String) : Desc :=
  patternsBody c (trimL (lowerL command.data))

-- _parse_command when no LLM client is configured: the raw pattern result
def parse_command_no_llm (c : Clock) (command : String) : Desc :=
  parse_with_patterns c command

-- the LLM-failure fallback path of _parse_with_gemini: pattern result,
-- then the normalizer
def gemini_fallback_parse (c : Clock) (command : String) : Desc :=
  normalize_parsed_command c (parse_with_patterns c command)

-- ===== ai_service.py: the Dispatcher (_execute_action) =====

structure AICommandResponse where
  success : Bool
  message : String
  action : Option String := none
  task_id : Option Nat := none
  tasks : Option (List Task) := none
deriving DecidableEq

def Val.typeName : Val → String
  | .vnull => "NoneType"
  | .vbool _ => "bool"
  | .vint _ => "int"
  | .vfloat _ => "float"
  | .vstr _ => "str"

-- parsed_command.get(key, "").strip(); a non-string value raises an
-- AttributeError that the outer handler of _execute_action converts
def getStrAttr (v : Option Val) : Except String String :=
  match v with
  | none => Except.ok ""
  | some (.vstr s) => Except.ok (trimS s)
  | some v =>
    Except.error ("\x27" ++ v.typeName ++ "\x27 object has no attribute \x27strip\x27")

-- Python int(value); ValueError text abbreviated
def pyInt (v : Val) : Except String Int :=
  match v with
  | .vint n => Except.ok n
  | .vbool b => Except.ok (if b then 1 else 0)
  | .vfloat q => Except.ok (if q ≥ 0 then q.floor else q.ceil)
  | .vstr s =>
    match (trimS s).toInt? with
    | some n => Except.ok n
    | none => Except.error ("invalid literal for int() with base 10: \x27" ++ s ++ "\x27")
  | .vnull => Except.error "int() argument cannot be \x27NoneType\x27"

-- TaskState(value) on a .get result; any non-member is a ValueError
def stateOfVal (v : Option Val) : Option TaskState :=
  match v with
  | some (.vstr s) => TaskState.ofValue s
  | _ => none

-- "key in dict and dict[key]" guard used by the create branch
def presentTruthy (d : Desc) (k : String) : Option Val :=
  match lookupKey k d with
  | some v => if truthy v then some v else none
  | none => none

-- --- pydantic validation at TaskCreate(**data) (inner try of the create
-- branch); a none result is a ValidationError; date and time strings are
-- accepted in the strict padded forms pydantic parses ---

def isPydanticDate (s : String) : Bool :=
  match s.data with
  | [y1, y2, y3, y4, '-', m1, m2, '-', d1, d2] =>
    y1.isDigit && y2.isDigit && y3.isDigit && y4.isDigit && m1.isDigit && m2.isDigit &&
      d1.isDigit && d2.isDigit &&
      ymdOk (dv y1 * 1000 + dv y2 * 100 + dv y3 * 10 + dv y4) (dv m1 * 10 + dv m2)
        (dv d1 * 10 + dv d2)
  | _ => false

def isPydanticTime (s : String) : Bool :=
  match s.data with
  | [h1, h2, ':', m1, m2] =>
    h1.isDigit && h2.isDigit && m1.isDigit && m2.isDigit &&
      dv h1 * 10 + dv h2 ≤ 23 && dv m1 * 10 + dv m2 ≤ 59
  | _ => false

def pydPriorityField : Option Val → Option (Option TaskPriority)
  | none => some none
  | some (.vstr s) => (TaskPriority.ofValue s).map some
  | some _ => none

def pydStrField : Option Val → Option (Option String)
  | none => some none
  | some (.vstr s) => some (some s)
  | some _ => none

def pydDateField : Option Val → Option (Option String)
  | none => some none
  | some (.vstr s) => if isPydanticDate s then some (some s) else none
  | some _ => none

def pydTimeField : Option Val → Option (Option String)
  | none => some none
  | some (.vstr s) => if isPydanticTime s then some (some s) else none
  | some _ => none

-- parsed_command["description"].strip() happens before the inner try
def stripDescription (d : Desc) : Except String (Option String) :=
  match presentTruthy d "description" with
  | none => Except.ok none
  | some (.vstr s) => Except.ok (some (trimS s))
  | some v =>
    Except.error ("\x27" ++ v.typeName ++ "\x27 object has no attribute \x27strip\x27")

-- int(parsed_command["reminder_time"]) also happens before the inner try
def reminderInt (d : Desc) : Except String (Option Int) :=
  match presentTruthy d "reminder_time" with
  | none => Except.ok none
  | some v => (pyInt v).map some

def buildTaskCreate (title : String) (descriptionS : Option String)
    (reminderI : Option Int) (d : Desc) : Option TaskCreate :=
  match pydPriorityField (presentTruthy d "priority"),
      pydStrField (presentTruthy d "category"),
      pydDateField (presentTruthy d "scheduled_date"),
      pydTimeField (presentTruthy d "scheduled_time"),
      pydDateField (presentTruthy d "due_date"),
      pydTimeField (presentTruthy d "due_time") with
  | some pr, some cat, some sd, some st, some dd, some dt =>
    some { title := title, description := descriptionS, priority := pr.getD .MEDIUM,
           category := cat, scheduled_date := sd, scheduled_time := st,
           due_date := dd, due_time := dt, reminder_time := reminderI }
  | _, _, _, _, _, _ => none

-- the multi-line confirmation for a created task; stored date/time strings
-- stand in for the str() of the date/time objects
def createMsg (t : Task) : String :=
  String.intercalate "\n"
    (["Created task: \x27" ++ t.title ++ "\x27"]
      ++ (match t.scheduled_date with
          | some sd =>
            ["📅 Scheduled for " ++ sd ++
              (match t.scheduled_time with
               | some st => " at " ++ st
               | none => "")]
          | none => [])
      ++ (match t.due_date with
          | some dd =>
            ["⏰ Due " ++ dd ++
              (match t.due_time with
               | some dt => " at " ++ dt
               | none => "")]
          | none => [])
      ++ (if t.priority.value ≠ "Medium" then
            ["🔥 Priority: TaskPriority." ++ t.priority.value]
          else [])
      ++ (match t.reminder_time with
          | some r =>
            if r ≠ 0 then ["🔔 Reminder: " ++ toString r ++ " minutes before due"] else []
          | none => []))

def errorResp (e : String) : AICommandResponse :=
  { success := false, message := "Error: " ++ e }

def greetingMsg : String :=
  "Hello! I\x27m your personal day planner assistant. I can help you:\n\n📅 **Schedule Tasks:**\n• \x27Schedule meeting tomorrow at 3pm\x27\n• \x27Plan study session for today at 8pm\x27\n• \x27Remind me to call John at 2pm\x27\n\n📋 **Manage Tasks:**\n• \x27Show my schedule for today\x27\n• \x27What\x27s on my agenda tomorrow?\x27\n• \x27Mark presentation as completed\x27\n\n⏰ **Set Reminders:**\n• \x27Remind me 30 minutes before the meeting\x27\n• \x27Set reminder for doctor appointment\x27\n\nHow can I help organize your day?"

def helpMsg : String :=
  "I\x27m your AI day planner! Here\x27s how I can help:\n\n📅 **Scheduling:**\n• \x27Schedule meeting tomorrow at 3pm\x27\n• \x27Plan workout for today morning\x27\n• \x27Book dentist appointment Friday 2pm\x27\n\n⏰ **Time Management:**\n• \x27Show my schedule for today\x27\n• \x27What\x27s due tomorrow?\x27\n• \x27List urgent tasks\x27\n\n🔔 **Reminders:**\n• \x27Remind me 15 minutes before meeting\x27\n• \x27Set reminder for grocery shopping\x27\n\n✅ **Task Updates:**\n• \x27Start working on presentation\x27\n• \x27Complete the research task\x27\n• \x27Delete old appointment\x27\n\n🏷️ **Categories & Priorities:**\n• \x27Add high priority work task\x27\n• \x27Create personal reminder\x27\n\nJust tell me what you need to plan or organize!"

def generalMsg : String :=
  "I\x27m your personal task assistant! I can help you create, manage, and track your tasks. Try asking me to:\n\n• \x27Add a new task\x27\n• \x27Show my current tasks\x27\n• \x27Mark a task as done\x27\n\nWhat would you like me to help you with?"

def unknownResponse : AICommandResponse :=
  { success := false,
    message := "I couldn\x27t understand what you want to do. Try commands like \x27create task\x27, \x27start task\x27, \x27complete task\x27, or \x27show tasks\x27." }

def execChat (d : Desc) : AICommandResponse :=
  let mt := (lookupKey "message" d).getD (Val.vstr "general")
  if mt = Val.vstr "greeting" then { success := true, message := greetingMsg }
  else if mt = Val.vstr "help" then { success := true, message := helpMsg }
  else { success := true, message := generalMsg }

def execCreate (d : Desc) (user_id : Nat) (db : List Task) :
    AICommandResponse × List Task :=
  match getStrAttr (lookupKey "task_title" d) with
  | .error e => (errorResp e, db)
  | .ok task_title =>
    if task_title.isEmpty then
      ({ success := false, message := "Please provide a task title." }, db)
    else
      match stripDescription d with
      | .error e => (errorResp e, db)
      | .ok descriptionS =>
        match reminderInt d with
        | .error e => (errorResp e, db)
        | .ok reminderI =>
          match buildTaskCreate task_title descriptionS reminderI d with
          | none =>
            ({ success := false,
               message := "Failed to create task: validation error" }, db)
          | some task_create =>
            let (task, db') := create_task db task_create user_id
            ({ success := true, message := createMsg task, action := some "create",
               task_id := some task.id }, db')

def execUpdateState (d : Desc) (user_id : Nat) (db : List Task) :
    AICommandResponse × List Task :=
  match getStrAttr (lookupKey "task_title" d) with
  | .error e => (errorResp e, db)
  | .ok task_title =>
    let new_state := lookupKey "new_state" d
    if task_title.isEmpty then
      ({ success := false, message := "Please specify which task to update." }, db)
    else
      match search_tasks_by_title db task_title user_id with
      | [] =>
        ({ success := false,
           message := "No tasks found matching \x27" ++ task_title ++ "\x27" }, db)
      | [task] =>
        (match stateOfVal new_state with
         | none =>
           ({ success := false,
              message := "Invalid state: " ++ pyStr (new_state.getD Val.vnull) }, db)
         | some ns =>
           match update_task db task.id { state := some ns } user_id with
           | (.ok updated_task, db') =>
             ({ success := true,
                message := "Updated \x27" ++ task.title ++ "\x27 to \x27" ++
                  pyStr (new_state.getD Val.vnull) ++ "\x27",
                action := some "update_state", task_id := some updated_task.id }, db')
           | (.error e, db') => (errorResp e.str, db'))
      | matching =>
        ({ success := false,
           message := "Multiple tasks found: " ++
             String.intercalate ", " (matching.map Task.title) ++
             ". Please be more specific." }, db)

def execList (d : Desc) (user_id : Nat) (db : List Task) : AICommandResponse :=
  let sf := lookupKey "state_filter" d
  let truthSf := (sf.map truthy).getD false
  let fmsg := if truthSf then " in state \x27" ++ pyStr (sf.getD Val.vnull) ++ "\x27" else ""
  let proceed := fun (st : Option TaskState) =>
    let tasks := get_tasks db user_id st
    if tasks.isEmpty then
      { success := true, message := "No tasks found" ++ fmsg, action := some "list",
        tasks := some ([] : List Task) : AICommandResponse }
    else
      { success := true,
        message := "Found " ++ toString tasks.length ++ " task(s)" ++ fmsg,
        action := some "list", tasks := some tasks }
  if truthSf then
    match stateOfVal sf with
    | none =>
      { success := false,
        message := "Invalid state filter: " ++ pyStr (sf.getD Val.vnull) }
    | some st => proceed (some st)
  else proceed none

def execDelete (d : Desc) (user_id : Nat) (db : List Task) :
    AICommandResponse × List Task :=
  match getStrAttr (lookupKey "task_title" d) with
  | .error e => (errorResp e, db)
  | .ok task_title =>
    if task_title.isEmpty then
      ({ success := false, message := "Please specify which task to delete." }, db)
    else
      match search_tasks_by_title db task_title user_id with
      | [] =>
        ({ success := false,
           message := "No tasks found matching \x27" ++ task_title ++ "\x27" }, db)
      | [task] =>
        (match delete_task db task.id user_id with
         | (.ok _, db') =>
           ({ success := true, message := "Deleted task: \x27" ++ task.title ++ "\x27",
              action := some "delete", task_id := some task.id }, db')
         | (.error e, db') => (errorResp e.str, db'))
      | matching =>
        ({ success := false,
           message := "Multiple tasks found: " ++
             String.intercalate ", " (matching.map Task.title) ++
             ". Please be more specific." }, db)

-- AIService._execute_action
def execute_action (parsed_command : Desc) (user_id : Nat) (db : List Task) :
    AICommandResponse × List Task :=
  let action := lookupKey "action" parsed_command
  if action = some (Val.vstr "chat") then (execChat parsed_command, db)
  else if action = some (Val.vstr "create") then execCreate parsed_command user_id db
  else if action = some (Val.vstr "update_state") then
    execUpdateState parsed_command user_id db
  else if action = some (Val.vstr "list") then (execList parsed_command user_id db, db)
  else if action = some (Val.vstr "delete") then execDelete parsed_command user_id db
  else (unknownResponse, db)

-- AIService.process_command in the configuration without an LLM client
def process_command_no_llm (c : Clock) (command : String) (user_id : Nat)
    (db : List Task) : AICommandResponse × List Task :=
  execute_action (parse_command_no_llm c command) user_id db

-- ===== auxiliary definitions for the statements below =====

-- written from the words of the spec: a date of the shape ISO YYYY-MM-DD,
-- four digits, dash, two digits, dash, two digits
def specIsoYmdShape (s : String) : Bool :=
  match s.data with
  | [y1, y2, y3, y4, '-', m1, m2, '-', d1, d2] =>
    y1.isDigit && y2.isDigit && y3.isDigit && y4.isDigit && m1.isDigit && m2.isDigit &&
      d1.isDigit && d2.isDigit
  | _ => false

def dateKeys : List String := ["scheduled_date", "due_date", "date_filter"]

def timeKeys : List String := ["scheduled_time", "due_time"]

-- the keys the normalizer recognizes; everything else must pass untouched
def normalizedKeys : List String :=
  ["priority", "scheduled_date", "due_date", "date_filter", "scheduled_time", "due_time"]

-- a normalized field is absent, or holds a non-empty string of valid shape
def fieldOk (o : Option Val) (p : String → Bool) : Prop :=
  o = none ∨ ∃ s, o = some (Val.vstr s) ∧ p s = true ∧ s ≠ ""

-- a concrete clock for witnesses and counterexamples
def cW : Clock :=
  { todayStr := "2026-10-12", tomorrowStr := "2026-10-13", yesterdayStr := "2026-10-11",
    nextWeekStr := "2026-10-19", nextMonthStr := "2026-11-11" }

-- a bare stored task for witnesses and counterexamples
def mkTask (i : Nat) (ti : String) (st : TaskState) (uid : Nat) : Task :=
  { id := i, title := ti, description := none, state := st, priority := .MEDIUM,
    category := none, scheduled_date := none, scheduled_time := none,
    due_date := none, due_time := none, reminder_time := none,
    created_at := 0, updated_at := 0, user_id := uid }

-- the two-task store of the disambiguation scenario
def presentationStore : List Task :=
  [mkTask 1 "Presentation draft" .NOT_STARTED 1,
   mkTask 2 "Presentation review" .NOT_STARTED 1]

-- ===== theorems =====

-- dispatch helper: a list action reaches execList and nothing else
theorem execute_action_on_list (d : Desc) (uid : Nat) (db : List Task)
    (h : lookupKey "action" d = some (Val.vstr "list")) :
    execute_action d uid db = (execList d uid db, db) := by
  unfold execute_action
  rw [h]
  rfl

theorem execute_action_on_update_state (d : Desc) (uid : Nat) (db : List Task)
    (h : lookupKey "action" d = some (Val.vstr "update_state")) :
    execute_action d uid db = execUpdateState d uid db := by
  unfold execute_action
  rw [h]
  rfl

theorem execute_action_on_delete (d : Desc) (uid : Nat) (db : List Task)
    (h : lookupKey "action" d = some (Val.vstr "delete")) :
    execute_action d uid db = execDelete d uid db := by
  unfold execute_action
  rw [h]
  rfl

theorem execute_action_on_create (d : Desc) (uid : Nat) (db : List Task)
    (h : lookupKey "action" d = some (Val.vstr "create")) :
    execute_action d uid db = execCreate d uid db := by
  unfold execute_action
  rw [h]
  rfl

-- the transition table is exactly the linear chain
theorem transition_chain (s s' : TaskState) :
    TaskState.is_valid_transition s s' = true ↔
      ((s = .NOT_STARTED ∧ s' = .IN_PROGRESS) ∨ (s = .IN_PROGRESS ∧ s' = .COMPLETED)) := by
  cases s <;> cases s' <;> simp [TaskState.is_valid_transition, TaskState.get_valid_transitions,
    List.contains]

/-- C1: update_task accepts a requested state change exactly when it follows
the linear chain Not Started to In Progress to Completed (Completed terminal,
no skips, no backward moves, no self-transitions); any other requested
transition fails with the invalid-transition error and leaves the stored
rows, in particular the task state, unchanged. -/
theorem c1_update_state_guard (db : List Task) (tid uid : Nat) (u : TaskUpdate)
    (task : Task) (ns : TaskState)
    (hget : get_task db tid uid = some task) (hstate : u.state = some ns) :
    ((∃ t', (update_task db tid u uid).1 = Except.ok t') ↔
      ((task.state = .NOT_STARTED ∧ ns = .IN_PROGRESS) ∨
        (task.state = .IN_PROGRESS ∧ ns = .COMPLETED))) ∧
    (¬((task.state = .NOT_STARTED ∧ ns = .IN_PROGRESS) ∨
        (task.state = .IN_PROGRESS ∧ ns = .COMPLETED)) →
      update_task db tid u uid =
        (Except.error { status_code := 400,
                        detail := invalidTransitionDetail task.state ns }, db)) := by
  unfold update_task
  rw [hget, hstate]
  unfold validate_state_transition
  rcases h : TaskState.is_valid_transition task.state ns with _ | _
  · have hchain : ¬((task.state = .NOT_STARTED ∧ ns = .IN_PROGRESS) ∨
        (task.state = .IN_PROGRESS ∧ ns = .COMPLETED)) := by
      rw [← transition_chain task.state ns]
      simp [h]
    simp only [h, Bool.false_eq_true, if_false]
    constructor
    · constructor
      · rintro ⟨t', ht'⟩
        cases ht'
      · intro hc
        exact absurd hc hchain
    · intro _
      trivial
  · have hchain := (transition_chain task.state ns).mp h
    simp only [h, if_true]
    constructor
    · constructor
      · intro _
        exact hchain
      · intro _
        exact ⟨_, rfl⟩
    · intro hc
      exact absurd hchain hc

theorem c1_update_state_guard_witness :
    get_task [mkTask 1 "x" TaskState.COMPLETED 1] 1 1
      = some (mkTask 1 "x" TaskState.COMPLETED 1) ∧
    (TaskUpdate.mk none none (some TaskState.IN_PROGRESS)
        none none none none none none none).state = some TaskState.IN_PROGRESS ∧
    (¬(((mkTask 1 "x" TaskState.COMPLETED 1).state = TaskState.NOT_STARTED ∧
          TaskState.IN_PROGRESS = TaskState.IN_PROGRESS) ∨
        ((mkTask 1 "x" TaskState.COMPLETED 1).state = TaskState.IN_PROGRESS ∧
          TaskState.IN_PROGRESS = TaskState.COMPLETED)) →
      update_task [mkTask 1 "x" TaskState.COMPLETED 1] 1
          (TaskUpdate.mk none none (some TaskState.IN_PROGRESS)
            none none none none none none none) 1 =
        (Except.error
          (HTTPError.mk 400
            (invalidTransitionDetail (mkTask 1 "x" TaskState.COMPLETED 1).state
              TaskState.IN_PROGRESS)),
          [mkTask 1 "x" TaskState.COMPLETED 1])) :=
  ⟨by decide, by decide,
    (c1_update_state_guard [mkTask 1 "x" TaskState.COMPLETED 1] 1 1
      (TaskUpdate.mk none none (some TaskState.IN_PROGRESS) none none none none none none none)
      (mkTask 1 "x" TaskState.COMPLETED 1) TaskState.IN_PROGRESS (by decide) (by decide)).2⟩

/-- C10: a descriptor whose action is update_task reaches no Task Store
operation: the dispatcher has no branch for it, so the result is the generic
could-not-understand failure and the stored rows are unchanged. -/
theorem c10_update_task_action_unhandled (d : Desc) (uid : Nat) (db : List Task)
    (h : lookupKey "action" d = some (Val.vstr "update_task")) :
    execute_action d uid db = (unknownResponse, db) := by
  unfold execute_action
  rw [h]
  rfl

theorem c10_update_task_action_unhandled_witness :
    lookupKey "action" [("action", Val.vstr "update_task"), ("task_title", Val.vstr "x")]
      = some (Val.vstr "update_task") ∧
    execute_action [("action", Val.vstr "update_task"), ("task_title", Val.vstr "x")] 1
        presentationStore = (unknownResponse, presentationStore) :=
  ⟨by decide,
    c10_update_task_action_unhandled
      [("action", Val.vstr "update_task"), ("task_title", Val.vstr "x")] 1
      presentationStore (by decide)⟩

/-- C9: for list descriptors the dispatcher consults only state_filter (and
the user id); two list descriptors agreeing on state_filter, whatever their
date_filter or category_filter hold, produce identical results. -/
theorem c9_list_reads_only_state_filter (d₁ d₂ : Desc) (uid : Nat) (db : List Task)
    (h₁ : lookupKey "action" d₁ = some (Val.vstr "list"))
    (h₂ : lookupKey "action" d₂ = some (Val.vstr "list"))
    (hsf : lookupKey "state_filter" d₁ = lookupKey "state_filter" d₂) :
    execute_action d₁ uid db = execute_action d₂ uid db := by
  rw [execute_action_on_list d₁ uid db h₁, execute_action_on_list d₂ uid db h₂]
  unfold execList
  rw [hsf]

theorem c9_list_reads_only_state_filter_witness :
    lookupKey "action" [("action", Val.vstr "list"), ("date_filter", Val.vstr "2026-10-12")]
      = some (Val.vstr "list") ∧
    lookupKey "action" [("action", Val.vstr "list"), ("category_filter", Val.vstr "Work")]
      = some (Val.vstr "list") ∧
    execute_action [("action", Val.vstr "list"), ("date_filter", Val.vstr "2026-10-12")] 1
        presentationStore =
      execute_action [("action", Val.vstr "list"), ("category_filter", Val.vstr "Work")] 1
        presentationStore :=
  ⟨by decide, by decide,
    c9_list_reads_only_state_filter
      [("action", Val.vstr "list"), ("date_filter", Val.vstr "2026-10-12")]
      [("action", Val.vstr "list"), ("category_filter", Val.vstr "Work")] 1
      presentationStore (by decide) (by decide) (by decide)⟩

/-- C3: searchTasksByTitle and getTasks only ever return tasks owned by the
calling user, and update/delete on the id of a task owned by a different
user fail with the NotFound error and leave the store unchanged. -/
theorem c3_ownership_isolation (db : List Task) (pat : String) (uid : Nat)
    (f : Option TaskState) (tk : Task) (u : TaskUpdate)
    (htk : tk ∈ db) (howner : tk.user_id ≠ uid)
    (hid : ∀ t ∈ db, t.id = tk.id → t = tk) :
    (∀ t ∈ search_tasks_by_title db pat uid, t.user_id = uid) ∧
    (∀ t ∈ get_tasks db uid f, t.user_id = uid) ∧
    tk ∉ search_tasks_by_title db pat uid ∧
    tk ∉ get_tasks db uid f ∧
    update_task db tk.id u uid = (Except.error notFoundErr, db) ∧
    delete_task db tk.id uid = (Except.error notFoundErr, db) := by
  have hnone : get_task db tk.id uid = none := by
    unfold get_task
    rw [List.find?_eq_none]
    intro t ht
    simp only [Bool.and_eq_true, decide_eq_true_eq, not_and]
    intro hidt
    rw [hid t ht hidt]
    exact howner
  refine ⟨?_, ?_, ?_, ?_, ?_, ?_⟩
  · intro t ht
    have := List.of_mem_filter ht
    simp only [Bool.and_eq_true, decide_eq_true_eq] at this
    exact this.1
  · intro t ht
    have := List.of_mem_filter ht
    simp only [Bool.and_eq_true, decide_eq_true_eq] at this
    exact this.1
  · intro hmem
    have := List.of_mem_filter hmem
    simp only [Bool.and_eq_true, decide_eq_true_eq] at this
    exact howner this.1
  · intro hmem
    have := List.of_mem_filter hmem
    simp only [Bool.and_eq_true, decide_eq_true_eq] at this
    exact howner this.1
  · unfold update_task
    rw [hnone]
  · unfold delete_task
    rw [hnone]

theorem c3_ownership_isolation_witness :
    mkTask 9 "Other" .NOT_STARTED 2 ∈
      [mkTask 1 "Mine" .NOT_STARTED 1, mkTask 9 "Other" .NOT_STARTED 2] ∧
    (mkTask 9 "Other" .NOT_STARTED 2).user_id ≠ 1 ∧
    update_task [mkTask 1 "Mine" .NOT_STARTED 1, mkTask 9 "Other" .NOT_STARTED 2]
        (mkTask 9 "Other" .NOT_STARTED 2).id
        (TaskUpdate.mk (some "stolen") none none none none none none none none none) 1 =
      (Except.error notFoundErr,
        [mkTask 1 "Mine" .NOT_STARTED 1, mkTask 9 "Other" .NOT_STARTED 2]) ∧
    (mkTask 9 "Other" .NOT_STARTED 2) ∉
      search_tasks_by_title
        [mkTask 1 "Mine" .NOT_STARTED 1, mkTask 9 "Other" .NOT_STARTED 2] "Other" 1 :=
  ⟨by decide, by decide,
    (c3_ownership_isolation
      [mkTask 1 "Mine" .NOT_STARTED 1, mkTask 9 "Other" .NOT_STARTED 2] "Other" 1 none
      (mkTask 9 "Other" .NOT_STARTED 2)
      (TaskUpdate.mk (some "stolen") none none none none none none none none none)
      (by decide) (by decide) (by decide)).2.2.2.2.1,
    (c3_ownership_isolation
      [mkTask 1 "Mine" .NOT_STARTED 1, mkTask 9 "Other" .NOT_STARTED 2] "Other" 1 none
      (mkTask 9 "Other" .NOT_STARTED 2)
      (TaskUpdate.mk (some "stolen") none none none none none none none none none)
      (by decide) (by decide) (by decide)).2.2.1⟩

/-- C8: the Pattern Interpreter maps the input Remind me to call John today
to a create descriptor titled call john (the lower-cased phrase), with
due_date equal to the current date string and reminder_time 15. -/
theorem c8_remind_call_john (c : Clock) :
    parse_with_patterns c "Remind me to call John today" =
      [("action", Val.vstr "create"), ("confidence", Val.vfloat 0.8),
       ("task_title", Val.vstr "call john"), ("due_date", Val.vstr c.todayStr),
       ("priority", Val.vstr "MEDIUM"), ("reminder_time", Val.vint 15)] := rfl

/-- C5 counterexample: with the two tasks Presentation draft and Presentation
review stored for user 1, the command complete presentation does NOT fail
with a disambiguation message: because the word presentation contains the
scheduling keywords at and on, the Pattern Interpreter emits a create
descriptor and the pipeline successfully creates a third task. -/
theorem c5_counterexample :
    (process_command_no_llm cW "complete presentation" 1 presentationStore).1.success = true ∧
    (process_command_no_llm cW "complete presentation" 1 presentationStore).1.action
      = some "create" ∧
    (process_command_no_llm cW "complete presentation" 1 presentationStore).2.length = 3 := by
  decide

/-- C5 amended: whenever an update_state or delete descriptor carries a fuzzy
title matching more than one of the user tasks, dispatch fails listing every
matching title and the store is unchanged; the concrete command complete
presentation, however, never reaches this path, because the Pattern
Interpreter parses it as a create action (presentation contains the
scheduling keywords at and on), so the pipeline creates a new task instead. -/
theorem c5_amended_disambiguation (d : Desc) (uid : Nat) (db : List Task) (t : String)
    (t1 t2 : Task) (rest : List Task)
    (hact : lookupKey "action" d = some (Val.vstr "update_state") ∨
      lookupKey "action" d = some (Val.vstr "delete"))
    (htitle : lookupKey "task_title" d = some (Val.vstr t))
    (hne : (trimS t).isEmpty = false)
    (hsearch : search_tasks_by_title db (trimS t) uid = t1 :: t2 :: rest) :
    execute_action d uid db =
      ({ success := false,
         message := "Multiple tasks found: " ++
           String.intercalate ", " ((t1 :: t2 :: rest).map Task.title) ++
           ". Please be more specific." }, db) := by
  rcases hact with h | h
  · rw [execute_action_on_update_state d uid db h]
    unfold execUpdateState
    rw [htitle]
    simp only [getStrAttr, hne, Bool.false_eq_true, if_false]
    rw [hsearch]
  · rw [execute_action_on_delete d uid db h]
    unfold execDelete
    rw [htitle]
    simp only [getStrAttr, hne, Bool.false_eq_true, if_false]
    rw [hsearch]

theorem c5_amended_disambiguation_witness :
    execute_action
        [("action", Val.vstr "update_state"), ("task_title", Val.vstr "presentation"),
         ("new_state", Val.vstr "Completed")] 1 presentationStore =
      ({ success := false,
         message := "Multiple tasks found: " ++
           String.intercalate ", "
             ((mkTask 1 "Presentation draft" .NOT_STARTED 1 ::
               mkTask 2 "Presentation review" .NOT_STARTED 1 :: []).map Task.title) ++
           ". Please be more specific." }, presentationStore) :=
  c5_amended_disambiguation
    [("action", Val.vstr "update_state"), ("task_title", Val.vstr "presentation"),
     ("new_state", Val.vstr "Completed")] 1 presentationStore "presentation"
    (mkTask 1 "Presentation draft" .NOT_STARTED 1)
    (mkTask 2 "Presentation review" .NOT_STARTED 1) []
    (Or.inl (by decide)) (by decide) (by decide) (by decide)

/-- C4: the store-level create always produces a task in state Not Started
(TaskCreate has no state field, so no caller-supplied state can influence
it); dispatching any create descriptor either leaves the store unchanged or
appends one task in state Not Started; and the round trip of a descriptor
carrying only a title yields a stored task whose optional fields are all
absent. -/
theorem c4_create_initial_state (db : List Task) (tc : TaskCreate) (uid : Nat)
    (d : Desc) (t : String)
    (hd : lookupKey "action" d = some (Val.vstr "create"))
    (ht : (trimS t).isEmpty = false) :
    (create_task db tc uid).1.state = TaskState.NOT_STARTED ∧
    ((execute_action d uid db).2 = db ∨
      ∃ tk, (execute_action d uid db).2 = db ++ [tk] ∧ tk.state = TaskState.NOT_STARTED) ∧
    (∃ tk,
      execute_action [("action", Val.vstr "create"), ("task_title", Val.vstr t)] uid db =
        ({ success := true, message := createMsg tk, action := some "create",
           task_id := some tk.id }, db ++ [tk]) ∧
      tk.state = TaskState.NOT_STARTED ∧ tk.title = trimS t ∧ tk.description = none ∧
      tk.category = none ∧ tk.scheduled_date = none ∧ tk.scheduled_time = none ∧
      tk.due_date = none ∧ tk.due_time = none ∧ tk.reminder_time = none) := by
  refine ⟨rfl, ?_, ?_⟩
  · rw [execute_action_on_create d uid db hd]
    unfold execCreate
    repeat' split
    all_goals try (left; rfl)
    next task db2 heq =>
      right
      unfold create_task at heq
      injection heq with h1 h2
      subst h1
      subst h2
      exact ⟨_, rfl, rfl⟩
  · have h0 : execute_action [("action", Val.vstr "create"), ("task_title", Val.vstr t)] uid db
        = execCreate [("action", Val.vstr "create"), ("task_title", Val.vstr t)] uid db := rfl
    rw [h0]
    have h1 : execCreate [("action", Val.vstr "create"), ("task_title", Val.vstr t)] uid db
        = if (trimS t).isEmpty then
            ({ success := false, message := "Please provide a task title." }, db)
          else
            (let pr := create_task db { title := trimS t } uid
             ({ success := true, message := createMsg pr.1, action := some "create",
                task_id := some pr.1.id }, pr.2)) := rfl
    rw [h1]
    simp only [ht, Bool.false_eq_true, if_false]
    exact ⟨_, rfl, rfl, rfl, rfl, rfl, rfl, rfl, rfl, rfl, rfl⟩

-- ===== association-list lemmas for the normalizer proofs =====

theorem lookupKey_cons (k k1 : String) (w : Val) (t : Desc) :
    lookupKey k ((k1, w) :: t) = if k1 = k then some w else lookupKey k t := rfl

theorem setKey_cons (k : String) (v : Val) (k1 : String) (w : Val) (t : Desc) :
    setKey k v ((k1, w) :: t) = (if k1 = k then (k, v) else (k1, w)) :: setKey k v t := by
  by_cases h : k1 = k <;> simp [setKey, h]

theorem eraseKey_cons (k k1 : String) (w : Val) (t : Desc) :
    eraseKey k ((k1, w) :: t) =
      if k1 = k then eraseKey k t else (k1, w) :: eraseKey k t := by
  by_cases h : k1 = k <;> simp [eraseKey, List.filter_cons, h]

theorem lookupKey_append (k : String) (l1 l2 : Desc) :
    lookupKey k (l1 ++ l2) =
      match lookupKey k l1 with
      | some v => some v
      | none => lookupKey k l2 := by
  induction l1 with
  | nil => rfl
  | cons p t ih =>
    obtain ⟨k1, w⟩ := p
    by_cases h : k1 = k
    · simp [lookupKey_cons, h]
    · simp [lookupKey_cons, h, ih]

theorem lookupKey_none_of_keys (k : String) (l : Desc) (h : ∀ p ∈ l, p.1 ≠ k) :
    lookupKey k l = none := by
  induction l with
  | nil => rfl
  | cons p t ih =>
    obtain ⟨k1, w⟩ := p
    have hk : k1 ≠ k := h (k1, w) (List.mem_cons_self _ _)
    rw [lookupKey_cons, if_neg hk]
    exact ih (fun q hq => h q (List.mem_cons_of_mem _ hq))

theorem lookupKey_mem (k : String) (d : Desc) (v : Val)
    (h : lookupKey k d = some v) : (k, v) ∈ d := by
  induction d with
  | nil => cases h
  | cons p t ih =>
    obtain ⟨k1, w⟩ := p
    by_cases hk : k1 = k
    · subst hk
      rw [lookupKey_cons, if_pos rfl] at h
      cases h
      exact List.mem_cons_self _ _
    · rw [lookupKey_cons, if_neg hk] at h
      exact List.mem_cons_of_mem _ (ih h)

theorem lookupKey_setKey_self (k : String) (v : Val) (d : Desc) :
    lookupKey k (setKey k v d) = (lookupKey k d).map (fun _ => v) := by
  induction d with
  | nil => rfl
  | cons p t ih =>
    obtain ⟨k1, w⟩ := p
    by_cases hk : k1 = k
    · rw [setKey_cons, if_pos hk, lookupKey_cons, if_pos rfl, lookupKey_cons, if_pos hk]
      rfl
    · rw [setKey_cons, if_neg hk, lookupKey_cons, if_neg hk, lookupKey_cons, if_neg hk, ih]

theorem lookupKey_setKey_ne (k k' : String) (v : Val) (d : Desc) (h : k ≠ k') :
    lookupKey k (setKey k' v d) = lookupKey k d := by
  induction d with
  | nil => rfl
  | cons p t ih =>
    obtain ⟨k1, w⟩ := p
    by_cases h1 : k1 = k'
    · rw [setKey_cons, if_pos h1, lookupKey_cons, if_neg (Ne.symm h), lookupKey_cons, ih,
        if_neg (h1 ▸ Ne.symm h : ¬k1 = k)]
    · rw [setKey_cons, if_neg h1, lookupKey_cons, lookupKey_cons, ih]

theorem lookupKey_eraseKey_self (k : String) (d : Desc) :
    lookupKey k (eraseKey k d) = none := by
  induction d with
  | nil => rfl
  | cons p t ih =>
    obtain ⟨k1, w⟩ := p
    by_cases hk : k1 = k
    · rw [eraseKey_cons, if_pos hk]
      exact ih
    · rw [eraseKey_cons, if_neg hk, lookupKey_cons, if_neg hk]
      exact ih

theorem lookupKey_eraseKey_ne (k k' : String) (d : Desc) (h : k ≠ k') :
    lookupKey k (eraseKey k' d) = lookupKey k d := by
  induction d with
  | nil => rfl
  | cons p t ih =>
    obtain ⟨k1, w⟩ := p
    by_cases h1 : k1 = k'
    · rw [eraseKey_cons, if_pos h1, lookupKey_cons, if_neg (h1 ▸ Ne.symm h : ¬k1 = k), ih]
    · rw [eraseKey_cons, if_neg h1, lookupKey_cons, lookupKey_cons, ih]

theorem setKey_id (k : String) (v : Val) (d : Desc)
    (h : ∀ p ∈ d, p.1 = k → p.2 = v) : setKey k v d = d := by
  induction d with
  | nil => rfl
  | cons p t ih =>
    obtain ⟨k1, w⟩ := p
    have ht := ih (fun q hq hq1 => h q (List.mem_cons_of_mem _ hq) hq1)
    by_cases hk : k1 = k
    · have hw : w = v := h (k1, w) (List.mem_cons_self _ _) hk
      rw [setKey_cons, if_pos hk, ht, hk, hw]
    · rw [setKey_cons, if_neg hk, ht]

theorem setKey_setKey_self (k : String) (v w : Val) (d : Desc) :
    setKey k v (setKey k w d) = setKey k v d := by
  induction d with
  | nil => rfl
  | cons p t ih =>
    obtain ⟨k1, u⟩ := p
    by_cases hk : k1 = k
    · rw [setKey_cons, if_pos hk, setKey_cons, if_pos rfl, setKey_cons, if_pos hk, ih]
    · rw [setKey_cons, if_neg hk, setKey_cons, if_neg hk, setKey_cons, if_neg hk, ih]

theorem setKey_comm (k k' : String) (v w : Val) (d : Desc) (h : k ≠ k') :
    setKey k v (setKey k' w d) = setKey k' w (setKey k v d) := by
  induction d with
  | nil => rfl
  | cons p t ih =>
    obtain ⟨k1, u⟩ := p
    by_cases h1 : k1 = k'
    · rw [setKey_cons, if_pos h1, setKey_cons, if_neg (Ne.symm h), setKey_cons,
        if_neg (h1 ▸ Ne.symm h : ¬k1 = k), setKey_cons, if_pos h1, ih]
    · by_cases h2 : k1 = k
      · rw [setKey_cons, if_neg h1, setKey_cons, if_pos h2, setKey_cons, if_pos h2,
          setKey_cons, if_neg h, ih]
      · rw [setKey_cons, if_neg h1, setKey_cons, if_neg h2, setKey_cons, if_neg h2,
          setKey_cons, if_neg h1, ih]

theorem setKey_eraseKey_ne (k k' : String) (v : Val) (d : Desc) (h : k ≠ k') :
    setKey k v (eraseKey k' d) = eraseKey k' (setKey k v d) := by
  induction d with
  | nil => rfl
  | cons p t ih =>
    obtain ⟨k1, u⟩ := p
    by_cases h1 : k1 = k'
    · rw [eraseKey_cons, if_pos h1, setKey_cons, if_neg (h1 ▸ Ne.symm h : ¬k1 = k),
        eraseKey_cons, if_pos h1, ih]
    · by_cases h2 : k1 = k
      · rw [eraseKey_cons, if_neg h1, setKey_cons, if_pos h2, setKey_cons, if_pos h2,
          eraseKey_cons, if_neg h, ih]
      · rw [eraseKey_cons, if_neg h1, setKey_cons, if_neg h2, setKey_cons, if_neg h2,
          eraseKey_cons, if_neg h1, ih]

theorem eraseKey_comm (k k' : String) (d : Desc) :
    eraseKey k (eraseKey k' d) = eraseKey k' (eraseKey k d) := by
  unfold eraseKey
  rw [List.filter_filter, List.filter_filter]
  apply List.filter_congr
  intro p _
  rw [Bool.and_comm]

theorem eraseKey_idem (k : String) (d : Desc) :
    eraseKey k (eraseKey k d) = eraseKey k d := by
  unfold eraseKey
  rw [List.filter_filter]
  apply List.filter_congr
  intro p _
  rw [Bool.and_self]

theorem eraseKey_setKey_self (k : String) (v : Val) (d : Desc) :
    eraseKey k (setKey k v d) = eraseKey k d := by
  induction d with
  | nil => rfl
  | cons p t ih =>
    obtain ⟨k1, u⟩ := p
    by_cases h1 : k1 = k
    · rw [setKey_cons, if_pos h1, eraseKey_cons, if_pos rfl, eraseKey_cons, if_pos h1, ih]
    · rw [setKey_cons, if_neg h1, eraseKey_cons, if_neg h1, eraseKey_cons, if_neg h1, ih]

theorem mem_setKey_ne (k : String) (v : Val) (d : Desc) (p : String × Val)
    (hp : p ∈ setKey k v d) (hk : p.1 ≠ k) : p ∈ d := by
  unfold setKey at hp
  obtain ⟨q, hq, hqe⟩ := List.mem_map.mp hp
  by_cases h1 : q.1 = k
  · rw [if_pos h1] at hqe
    subst hqe
    simp at hk
  · rw [if_neg h1] at hqe
    subst hqe
    exact hq

theorem mem_eraseKey (k : String) (d : Desc) (p : String × Val)
    (hp : p ∈ eraseKey k d) : p ∈ d :=
  List.mem_of_mem_filter hp

-- ===== generic facts about the per-key normalizer step =====

theorem normField_absent (k : String) (f : Val → Option String) (d : Desc)
    (h : lookupKey k d = none) : normField k f d = d := by
  unfold normField
  rw [h]

theorem normField_eq_apply (k : String) (f : Val → Option String) (d : Desc) (v : Val)
    (h1 : lookupKey k d = some v) : normField k f d = normFieldApply k (f v) d := by
  unfold normField
  rw [h1]

theorem normField_eq_erase (k : String) (f : Val → Option String) (d : Desc) (v : Val)
    (h1 : lookupKey k d = some v) (h2 : f v = none) :
    normField k f d = eraseKey k d := by
  rw [normField_eq_apply k f d v h1, h2]
  rfl

theorem normField_eq_erase2 (k : String) (f : Val → Option String) (d : Desc)
    (v : Val) (s : String) (h1 : lookupKey k d = some v) (h2 : f v = some s)
    (h3 : s.isEmpty = true) : normField k f d = eraseKey k d := by
  rw [normField_eq_apply k f d v h1, h2]
  show (if s.isEmpty = true then eraseKey k d else setKey k (Val.vstr s) d) = eraseKey k d
  simp [h3]

theorem normField_eq_set (k : String) (f : Val → Option String) (d : Desc)
    (v : Val) (s : String) (h1 : lookupKey k d = some v) (h2 : f v = some s)
    (h3 : s.isEmpty = false) : normField k f d = setKey k (Val.vstr s) d := by
  rw [normField_eq_apply k f d v h1, h2]
  show (if s.isEmpty = true then eraseKey k d else setKey k (Val.vstr s) d)
    = setKey k (Val.vstr s) d
  simp [h3]

theorem lookupKey_normField_ne (k k' : String) (f : Val → Option String) (d : Desc)
    (h : k ≠ k') : lookupKey k (normField k' f d) = lookupKey k d := by
  cases hl : lookupKey k' d with
  | none => rw [normField_absent k' f d hl]
  | some v =>
    cases hf : f v with
    | none =>
      rw [normField_eq_erase k' f d v hl hf]
      exact lookupKey_eraseKey_ne k k' d h
    | some s =>
      by_cases hs : s.isEmpty = true
      · rw [normField_eq_erase2 k' f d v s hl hf hs]
        exact lookupKey_eraseKey_ne k k' d h
      · rw [normField_eq_set k' f d v s hl hf (Bool.not_eq_true _ ▸ hs)]
        exact lookupKey_setKey_ne k k' _ d h

theorem mem_normField_ne (k : String) (f : Val → Option String) (d : Desc)
    (p : String × Val) (hp : p ∈ normField k f d) (h : p.1 ≠ k) : p ∈ d := by
  cases hl : lookupKey k d with
  | none =>
    rw [normField_absent k f d hl] at hp
    exact hp
  | some v =>
    cases hf : f v with
    | none =>
      rw [normField_eq_erase k f d v hl hf] at hp
      exact mem_eraseKey k d p hp
    | some s =>
      by_cases hs : s.isEmpty = true
      · rw [normField_eq_erase2 k f d v s hl hf hs] at hp
        exact mem_eraseKey k d p hp
      · rw [normField_eq_set k f d v s hl hf (Bool.not_eq_true _ ▸ hs)] at hp
        exact mem_setKey_ne k _ d p hp h

theorem normField_fixed (k : String) (f : Val → Option String) (d : Desc) (s : String)
    (hall : ∀ p ∈ d, p.1 = k → p.2 = Val.vstr s)
    (hf : f (Val.vstr s) = some s) (hs : s.isEmpty = false) : normField k f d = d := by
  cases hl : lookupKey k d with
  | none => exact normField_absent k f d hl
  | some v =>
    have hv : v = Val.vstr s := hall (k, v) (lookupKey_mem k d v hl) rfl
    subst hv
    rw [normField_eq_set k f d _ s hl hf hs]
    exact setKey_id k _ d hall

theorem normField_out (k : String) (f : Val → Option String) (d : Desc) :
    lookupKey k (normField k f d) = none ∨
      ∃ v s, lookupKey k d = some v ∧ f v = some s ∧ s.isEmpty = false ∧
        lookupKey k (normField k f d) = some (Val.vstr s) := by
  cases hl : lookupKey k d with
  | none =>
    left
    rw [normField_absent k f d hl]
    exact hl
  | some v =>
    cases hf : f v with
    | none =>
      left
      rw [normField_eq_erase k f d v hl hf]
      exact lookupKey_eraseKey_self k d
    | some s =>
      by_cases hs : s.isEmpty = true
      · left
        rw [normField_eq_erase2 k f d v s hl hf hs]
        exact lookupKey_eraseKey_self k d
      · right
        have hs2 : s.isEmpty = false := Bool.not_eq_true _ ▸ hs
        refine ⟨v, s, rfl, hf, hs2, ?_⟩
        rw [normField_eq_set k f d v s hl hf hs2, lookupKey_setKey_self, hl]
        rfl

theorem normField_idem (k : String) (f : Val → Option String) (d : Desc)
    (hf : ∀ v s, f v = some s → f (Val.vstr s) = some s ∧ s.isEmpty = false) :
    normField k f (normField k f d) = normField k f d := by
  cases hl : lookupKey k d with
  | none =>
    have h1 : normField k f d = d := normField_absent k f d hl
    rw [h1, h1]
  | some v =>
    cases hfv : f v with
    | none =>
      rw [normField_eq_erase k f d v hl hfv]
      exact normField_absent k f _ (lookupKey_eraseKey_self k d)
    | some s =>
      obtain ⟨hf2, hs⟩ := hf v s hfv
      rw [normField_eq_set k f d v s hl hfv hs]
      have hl2 : lookupKey k (setKey k (Val.vstr s) d) = some (Val.vstr s) := by
        rw [lookupKey_setKey_self, hl]
        rfl
      rw [normField_eq_set k f _ _ s hl2 hf2 hs]
      exact setKey_setKey_self k _ _ d

theorem eraseKey_normField_ne (k k' : String) (g : Val → Option String) (d : Desc)
    (h : k ≠ k') : eraseKey k (normField k' g d) = normField k' g (eraseKey k d) := by
  have hl2 : lookupKey k' (eraseKey k d) = lookupKey k' d :=
    lookupKey_eraseKey_ne k' k d (Ne.symm h)
  cases hl' : lookupKey k' d with
  | none =>
    rw [normField_absent k' g d hl', normField_absent k' g _ (hl2.trans hl')]
  | some w =>
    have hl3 : lookupKey k' (eraseKey k d) = some w := hl2.trans hl'
    cases hgw : g w with
    | none =>
      rw [normField_eq_erase k' g d w hl' hgw,
        normField_eq_erase k' g _ w hl3 hgw, eraseKey_comm]
    | some s =>
      by_cases hs : s.isEmpty = true
      · rw [normField_eq_erase2 k' g d w s hl' hgw hs,
          normField_eq_erase2 k' g _ w s hl3 hgw hs, eraseKey_comm]
      · have hs2 : s.isEmpty = false := Bool.not_eq_true _ ▸ hs
        rw [normField_eq_set k' g d w s hl' hgw hs2,
          normField_eq_set k' g _ w s hl3 hgw hs2,
          setKey_eraseKey_ne k' k _ d (Ne.symm h)]

theorem setKey_normField_ne (k k' : String) (v : Val) (g : Val → Option String) (d : Desc)
    (h : k ≠ k') : setKey k v (normField k' g d) = normField k' g (setKey k v d) := by
  have hl2 : lookupKey k' (setKey k v d) = lookupKey k' d :=
    lookupKey_setKey_ne k' k v d (Ne.symm h)
  cases hl' : lookupKey k' d with
  | none =>
    rw [normField_absent k' g d hl', normField_absent k' g _ (hl2.trans hl')]
  | some w =>
    have hl3 : lookupKey k' (setKey k v d) = some w := hl2.trans hl'
    cases hgw : g w with
    | none =>
      rw [normField_eq_erase k' g d w hl' hgw,
        normField_eq_erase k' g _ w hl3 hgw, ← setKey_eraseKey_ne k k' v d h]
    | some s =>
      by_cases hs : s.isEmpty = true
      · rw [normField_eq_erase2 k' g d w s hl' hgw hs,
          normField_eq_erase2 k' g _ w s hl3 hgw hs, ← setKey_eraseKey_ne k k' v d h]
      · have hs2 : s.isEmpty = false := Bool.not_eq_true _ ▸ hs
        rw [normField_eq_set k' g d w s hl' hgw hs2,
          normField_eq_set k' g _ w s hl3 hgw hs2, setKey_comm k k' v _ d h]

theorem normField_comm (k k' : String) (f g : Val → Option String) (d : Desc)
    (h : k ≠ k') :
    normField k f (normField k' g d) = normField k' g (normField k f d) := by
  have hk : lookupKey k (normField k' g d) = lookupKey k d :=
    lookupKey_normField_ne k k' g d h
  cases hl : lookupKey k d with
  | none =>
    rw [normField_absent k f d hl, normField_absent k f _ (hk.trans hl)]
  | some v =>
    have hk2 : lookupKey k (normField k' g d) = some v := hk.trans hl
    cases hfv : f v with
    | none =>
      rw [normField_eq_erase k f _ v hk2 hfv, normField_eq_erase k f d v hl hfv,
        eraseKey_normField_ne k k' g d h]
    | some s =>
      by_cases hs : s.isEmpty = true
      · rw [normField_eq_erase2 k f _ v s hk2 hfv hs,
          normField_eq_erase2 k f d v s hl hfv hs, eraseKey_normField_ne k k' g d h]
      · have hs2 : s.isEmpty = false := Bool.not_eq_true _ ▸ hs
        rw [normField_eq_set k f _ v s hk2 hfv hs2,
          normField_eq_set k f d v s hl hfv hs2, setKey_normField_ne k k' _ g d h]

-- ===== generic facts about the priority step =====

theorem normPriority_absent (d : Desc) (hl : lookupKey "priority" d = none) :
    normPriority d = d := by
  unfold normPriority
  rw [hl]

theorem normPriority_eq_apply (d : Desc) (v : Val)
    (hl : lookupKey "priority" d = some v) :
    normPriority d = normPriorityApply v d := by
  unfold normPriority
  rw [hl]

theorem normPriorityApply_falsy (v : Val) (d : Desc) (htr : truthy v = false) :
    normPriorityApply v d = d := by
  unfold normPriorityApply
  simp [htr]

theorem normPriorityApply_miss (v : Val) (d : Desc) (htr : truthy v = true)
    (hm : lookupPriorityMap (lowerS (pyStr v)) = none) :
    normPriorityApply v d = d := by
  unfold normPriorityApply
  rw [htr, hm]
  rfl

theorem normPriorityApply_hit (v : Val) (d : Desc) (up : String)
    (htr : truthy v = true) (hm : lookupPriorityMap (lowerS (pyStr v)) = some up) :
    normPriorityApply v d = setKey "priority" (Val.vstr up) d := by
  unfold normPriorityApply
  rw [htr, hm]
  rfl

theorem priorityMap_out (x up : String) (h : lookupPriorityMap x = some up) :
    lookupPriorityMap (lowerS up) = some up ∧ up.isEmpty = false := by
  unfold lookupPriorityMap at h
  obtain ⟨pr, hfind, hsnd⟩ := Option.map_eq_some'.mp h
  have hmem := List.mem_of_find?_eq_some hfind
  subst hsnd
  fin_cases hmem <;> exact ⟨by decide, by decide⟩

theorem lookupKey_normPriority_ne (k : String) (d : Desc) (h : k ≠ "priority") :
    lookupKey k (normPriority d) = lookupKey k d := by
  cases hl : lookupKey "priority" d with
  | none => rw [normPriority_absent d hl]
  | some v =>
    rw [normPriority_eq_apply d v hl]
    by_cases htr : truthy v = true
    · cases hm : lookupPriorityMap (lowerS (pyStr v)) with
      | none => rw [normPriorityApply_miss v d htr hm]
      | some up =>
        rw [normPriorityApply_hit v d up htr hm]
        exact lookupKey_setKey_ne k "priority" _ d h
    · rw [normPriorityApply_falsy v d (Bool.not_eq_true _ ▸ htr)]

theorem mem_normPriority_ne (d : Desc) (p : String × Val)
    (hp : p ∈ normPriority d) (h : p.1 ≠ "priority") : p ∈ d := by
  cases hl : lookupKey "priority" d with
  | none =>
    rw [normPriority_absent d hl] at hp
    exact hp
  | some v =>
    rw [normPriority_eq_apply d v hl] at hp
    by_cases htr : truthy v = true
    · cases hm : lookupPriorityMap (lowerS (pyStr v)) with
      | none =>
        rw [normPriorityApply_miss v d htr hm] at hp
        exact hp
      | some up =>
        rw [normPriorityApply_hit v d up htr hm] at hp
        exact mem_setKey_ne "priority" _ d p hp h
    · rw [normPriorityApply_falsy v d (Bool.not_eq_true _ ▸ htr)] at hp
      exact hp

theorem normPriority_idem (d : Desc) : normPriority (normPriority d) = normPriority d := by
  cases hl : lookupKey "priority" d with
  | none =>
    have h1 : normPriority d = d := normPriority_absent d hl
    rw [h1, h1]
  | some v =>
    by_cases htr : truthy v = true
    · cases hm : lookupPriorityMap (lowerS (pyStr v)) with
      | none =>
        have h1 : normPriority d = d := by
          rw [normPriority_eq_apply d v hl, normPriorityApply_miss v d htr hm]
        rw [h1, h1]
      | some up =>
        obtain ⟨hfix, hne⟩ := priorityMap_out _ _ hm
        have h1 : normPriority d = setKey "priority" (Val.vstr up) d := by
          rw [normPriority_eq_apply d v hl, normPriorityApply_hit v d up htr hm]
        rw [h1]
        have hl2 : lookupKey "priority" (setKey "priority" (Val.vstr up) d)
            = some (Val.vstr up) := by
          rw [lookupKey_setKey_self, hl]
          rfl
        rw [normPriority_eq_apply _ _ hl2]
        have htr2 : truthy (Val.vstr up) = true := by
          simp [truthy, hne]
        have hps : pyStr (Val.vstr up) = up := rfl
        rw [normPriorityApply_hit _ _ up htr2 (by rw [hps]; exact hfix)]
        exact setKey_setKey_self "priority" _ _ d
    · have h1 : normPriority d = d := by
        rw [normPriority_eq_apply d v hl,
          normPriorityApply_falsy v d (Bool.not_eq_true _ ▸ htr)]
      rw [h1, h1]

theorem normPriority_normField_comm (k : String) (f : Val → Option String) (d : Desc)
    (h : k ≠ "priority") :
    normPriority (normField k f d) = normField k f (normPriority d) := by
  have hk : lookupKey "priority" (normField k f d) = lookupKey "priority" d :=
    lookupKey_normField_ne "priority" k f d (Ne.symm h)
  cases hl : lookupKey "priority" d with
  | none =>
    rw [normPriority_absent d hl, normPriority_absent _ (hk.trans hl)]
  | some v =>
    have hk2 : lookupKey "priority" (normField k f d) = some v := hk.trans hl
    by_cases htr : truthy v = true
    · cases hm : lookupPriorityMap (lowerS (pyStr v)) with
      | none =>
        rw [normPriority_eq_apply d v hl, normPriorityApply_miss v d htr hm,
          normPriority_eq_apply _ v hk2, normPriorityApply_miss v _ htr hm]
      | some up =>
        rw [normPriority_eq_apply d v hl, normPriorityApply_hit v d up htr hm,
          normPriority_eq_apply _ v hk2, normPriorityApply_hit v _ up htr hm,
          setKey_normField_ne "priority" k _ f d (Ne.symm h)]
    · have htr2 : truthy v = false := Bool.not_eq_true _ ▸ htr
      rw [normPriority_eq_apply d v hl, normPriorityApply_falsy v d htr2,
        normPriority_eq_apply _ v hk2, normPriorityApply_falsy v _ htr2]

theorem normPriority_fixed (d : Desc) (s : String)
    (hall : ∀ p ∈ d, p.1 = "priority" → p.2 = Val.vstr s)
    (hmap : lookupPriorityMap (lowerS s) = some s) : normPriority d = d := by
  cases hl : lookupKey "priority" d with
  | none => exact normPriority_absent d hl
  | some v =>
    have hv : v = Val.vstr s := hall ("priority", v) (lookupKey_mem _ d v hl) rfl
    subst hv
    rw [normPriority_eq_apply d _ hl]
    by_cases htr : truthy (Val.vstr s) = true
    · rw [normPriorityApply_hit _ _ s htr hmap]
      exact setKey_id "priority" _ d hall
    · rw [normPriorityApply_falsy _ d (Bool.not_eq_true _ ▸ htr)]

-- ===== character-level facts =====

theorem mk_data (s : String) : String.mk s.data = s := by cases s; rfl

theorem data_nil_iff (s : String) : s.data = [] ↔ s = "" := by
  constructor
  · intro h
    cases s
    simp only at h
    rw [h]
  · intro h
    rw [h]

theorem isEmpty_false_of_data (s : String) (h : s.data ≠ []) : s.isEmpty = false := by
  rcases he : s.isEmpty with _ | _
  · rfl
  · exact absurd ((data_nil_iff s).mpr ((String.isEmpty_iff _).mp he)) h

theorem lowerChar_clean (ch : Char) (h : ch.toNat ≤ 58) : lowerChar ch = ch := by
  unfold lowerChar
  rw [if_neg]
  intro hcon
  omega

theorem lowerL_clean (l : List Char) (h : ∀ ch ∈ l, ch.toNat ≤ 58) : lowerL l = l := by
  induction l with
  | nil => rfl
  | cons a t ih =>
    unfold lowerL at *
    simp only [List.map_cons]
    rw [lowerChar_clean a (h a (List.mem_cons_self _ _)),
      ih (fun ch hch => h ch (List.mem_cons_of_mem _ hch))]

theorem isSpaceChar_false (ch : Char) (h : 45 ≤ ch.toNat) : isSpaceChar ch = false := by
  unfold isSpaceChar
  have h1 : ch ≠ ' ' := fun he => absurd (he ▸ h) (by decide)
  have h2 : ch ≠ '\t' := fun he => absurd (he ▸ h) (by decide)
  have h3 : ch ≠ '\n' := fun he => absurd (he ▸ h) (by decide)
  have h4 : ch ≠ '\r' := fun he => absurd (he ▸ h) (by decide)
  have h5 : ch ≠ '\x0b' := fun he => absurd (he ▸ h) (by decide)
  have h6 : ch ≠ '\x0c' := fun he => absurd (he ▸ h) (by decide)
  simp [h1, h2, h3, h4, h5, h6]

theorem dropWhile_id (p : Char → Bool) (l : List Char) (h : ∀ ch ∈ l, p ch = false) :
    l.dropWhile p = l := by
  cases l with
  | nil => rfl
  | cons a t =>
    rw [List.dropWhile_cons, h a (List.mem_cons_self _ _)]
    simp

theorem trimL_clean (l : List Char) (h : ∀ ch ∈ l, 45 ≤ ch.toNat) : trimL l = l := by
  unfold trimL
  rw [dropWhile_id _ _ (fun ch hch => isSpaceChar_false ch (h ch hch)),
    dropWhile_id _ _ (fun ch hch =>
      isSpaceChar_false ch (h ch (List.mem_reverse.mp hch))),
    List.reverse_reverse]

theorem removeBrackets_clean (l : List Char) (h : ∀ ch ∈ l, ch.toNat ≤ 58) :
    removeBracketsL l = l := by
  unfold removeBracketsL
  apply List.filter_eq_self.mpr
  intro a ha
  have hle := h a ha
  have h1 : a ≠ '[' := fun he => absurd (he ▸ hle) (by decide)
  have h2 : a ≠ ']' := fun he => absurd (he ▸ hle) (by decide)
  simp [h1, h2]

theorem cleanup_id (s : String) (h : ∀ ch ∈ s.data, 45 ≤ ch.toNat ∧ ch.toNat ≤ 58) :
    removeBracketsL (trimL (lowerL s.data)) = s.data := by
  rw [lowerL_clean _ (fun ch hch => (h ch hch).2),
    trimL_clean _ (fun ch hch => (h ch hch).1),
    removeBrackets_clean _ (fun ch hch => (h ch hch).2)]

theorem isPre_mem (n l : List Char) (h : isPre n l = true) : ∀ c ∈ n, c ∈ l := by
  induction n generalizing l with
  | nil => intro c hc; cases hc
  | cons a t ih =>
    cases l with
    | nil => cases h
    | cons b m =>
      unfold isPre at h
      simp only [Bool.and_eq_true] at h
      obtain ⟨hab, hrest⟩ := h
      intro c hc
      rcases List.mem_cons.mp hc with rfl | hc2
      · simp only [decide_eq_true_eq] at hab
        rw [hab]
        exact List.mem_cons_self _ _
      · exact List.mem_cons_of_mem _ (ih m hrest c hc2)

theorem containsL_mem (n l : List Char) (h : containsL n l = true) : ∀ c ∈ n, c ∈ l := by
  induction l with
  | nil =>
    unfold containsL at h
    intro c hc
    rw [List.isEmpty_iff.mp h] at hc
    cases hc
  | cons b m ih =>
    unfold containsL at h
    simp only [Bool.or_eq_true] at h
    rcases h with h | h
    · exact isPre_mem n (b :: m) h
    · exact fun c hc => List.mem_cons_of_mem _ (ih h c hc)

theorem str_ne_lit (s t : String) (c : Char) (hct : c ∈ t.data) (hcs : c ∉ s.data) :
    s ≠ t ∧ t ≠ s :=
  ⟨fun he => hcs (by rw [he]; exact hct), fun he => hcs (by rw [← he]; exact hct)⟩

theorem notMem_clean (s : String) (c : Char)
    (hall : ∀ ch ∈ s.data, 45 ≤ ch.toNat ∧ ch.toNat ≤ 58) (hc : 58 < c.toNat) :
    c ∉ s.data := fun hmem => by
  have := (hall c hmem).2
  omega

-- ===== facts about the strict date and time shapes =====

theorem strptime_chars (s : String) (h : isStrptimeDate s = true) :
    ∀ ch ∈ s.data, ch.isDigit = true ∨ ch = '-' := by
  unfold isStrptimeDate at h
  intro ch hch
  split at h
  next y1 y2 y3 y4 m1 m2 d1 d2 heq =>
    rw [heq] at hch
    simp only [Bool.and_eq_true] at h
    fin_cases hch <;> simp_all
  next y1 y2 y3 y4 m1 d1 d2 heq =>
    rw [heq] at hch
    simp only [Bool.and_eq_true] at h
    fin_cases hch <;> simp_all
  next y1 y2 y3 y4 m1 m2 d1 heq =>
    rw [heq] at hch
    simp only [Bool.and_eq_true] at h
    fin_cases hch <;> simp_all
  next y1 y2 y3 y4 m1 d1 heq =>
    rw [heq] at hch
    simp only [Bool.and_eq_true] at h
    fin_cases hch <;> simp_all
  next => cases h

theorem strptime_clean (s : String) (h : isStrptimeDate s = true) :
    ∀ ch ∈ s.data, 45 ≤ ch.toNat ∧ ch.toNat ≤ 58 := by
  intro ch hch
  rcases strptime_chars s h ch hch with hd | rfl
  · have hb : 48 ≤ ch.toNat ∧ ch.toNat ≤ 57 := by simpa [Char.isDigit] using hd
    obtain ⟨h1, h2⟩ := hb
    exact ⟨by omega, by omega⟩
  · exact ⟨by decide, by decide⟩

theorem strptime_ne_nil (s : String) (h : isStrptimeDate s = true) : s.data ≠ [] := by
  intro hnil
  unfold isStrptimeDate at h
  rw [hnil] at h
  cases h

theorem timeShape_chars (s : String) (h : isTimeShape s = true) :
    ∀ ch ∈ s.data, ch.isDigit = true ∨ ch = ':' := by
  unfold isTimeShape at h
  intro ch hch
  split at h
  next a b d1 d2 heq =>
    rw [heq] at hch
    simp only [Bool.and_eq_true] at h
    fin_cases hch <;> simp_all
  next a d1 d2 heq =>
    rw [heq] at hch
    simp only [Bool.and_eq_true] at h
    fin_cases hch <;> simp_all
  next => cases h

theorem timeShape_clean (s : String) (h : isTimeShape s = true) :
    ∀ ch ∈ s.data, 45 ≤ ch.toNat ∧ ch.toNat ≤ 58 := by
  intro ch hch
  rcases timeShape_chars s h ch hch with hd | rfl
  · have hb : 48 ≤ ch.toNat ∧ ch.toNat ≤ 57 := by simpa [Char.isDigit] using hd
    obtain ⟨h1, h2⟩ := hb
    exact ⟨by omega, by omega⟩
  · exact ⟨by decide, by decide⟩

theorem timeShape_ne_nil (s : String) (h : isTimeShape s = true) : s.data ≠ [] := by
  intro hnil
  unfold isTimeShape at h
  rw [hnil] at h
  cases h

-- a string of strict date shape passes the date normalizer unchanged
theorem dateF_fix (c : Clock) (s : String) (h : isStrptimeDate s = true) :
    normalize_date_field c (Val.vstr s) = some s := by
  have hcl := strptime_clean s h
  have hnn := strptime_ne_nil s h
  have htr : truthy (Val.vstr s) = true := by
    simp [truthy, isEmpty_false_of_data s hnn]
  have hds : (⟨removeBracketsL (trimL (lowerL (pyStr (Val.vstr s)).data))⟩ : String) = s := by
    show (⟨removeBracketsL (trimL (lowerL s.data))⟩ : String) = s
    rw [cleanup_id s hcl, mk_data]
  unfold normalize_date_field
  rw [if_neg (by simp [htr]), hds]
  have hy := (str_ne_lit s "yyyy-mm-dd" 'y' (by decide) (notMem_clean s 'y' hcl (by decide))).1
  have hy2 := (str_ne_lit s "yyyy/mm/dd" 'y' (by decide) (notMem_clean s 'y' hcl (by decide))).1
  have hy3 := (str_ne_lit s "[yyyy-mm-dd]" 'y' (by decide) (notMem_clean s 'y' hcl (by decide))).1
  have ht1 := (str_ne_lit s "today" 't' (by decide) (notMem_clean s 't' hcl (by decide))).1
  have ht2 := (str_ne_lit s "[today]" 't' (by decide) (notMem_clean s 't' hcl (by decide))).1
  have ht3 := (str_ne_lit s "tomorrow" 't' (by decide) (notMem_clean s 't' hcl (by decide))).1
  have ht4 := (str_ne_lit s "[tomorrow]" 't' (by decide) (notMem_clean s 't' hcl (by decide))).1
  have ht5 := (str_ne_lit s "yesterday" 'y' (by decide) (notMem_clean s 'y' hcl (by decide))).1
  have ht6 := (str_ne_lit s "[yesterday]" 'y' (by decide) (notMem_clean s 'y' hcl (by decide))).1
  have hnw : containsS "next week" s = false := by
    rcases hcw : containsS "next week" s with _ | _
    · rfl
    · exact absurd (containsL_mem _ _ hcw 'n' (by decide))
        (notMem_clean s 'n' hcl (by decide))
  have hnm : containsS "next month" s = false := by
    rcases hcw : containsS "next month" s with _ | _
    · rfl
    · exact absurd (containsL_mem _ _ hcw 'n' (by decide))
        (notMem_clean s 'n' hcl (by decide))
  unfold normalize_date_str
  rw [if_neg (by simp [hy, hy2, hy3]), if_neg (by simp [ht1, ht2]),
    if_neg (by simp [ht3, ht4]), if_neg (by simp [ht5, ht6]),
    if_neg (by simp [hnw]), if_neg (by simp [hnm]), if_pos h]

-- a string of kept time shape passes the time normalizer unchanged
theorem timeF_fix (s : String) (h : isTimeShape s = true) :
    normalize_time_field (Val.vstr s) = some s := by
  have hcl := timeShape_clean s h
  have hnn := timeShape_ne_nil s h
  have htr : truthy (Val.vstr s) = true := by
    simp [truthy, isEmpty_false_of_data s hnn]
  have hds : (⟨trimL (lowerL (pyStr (Val.vstr s)).data)⟩ : String) = s := by
    show (⟨trimL (lowerL s.data)⟩ : String) = s
    rw [lowerL_clean _ (fun ch hch => (hcl ch hch).2),
      trimL_clean _ (fun ch hch => (hcl ch hch).1), mk_data]
  unfold normalize_time_field
  rw [if_neg (by simp [htr]), hds]
  have hp1 := (str_ne_lit s "hh:mm" 'h' (by decide) (notMem_clean s 'h' hcl (by decide))).1
  have hp2 := (str_ne_lit s "hh:mm:ss" 'h' (by decide) (notMem_clean s 'h' hcl (by decide))).1
  have hp3 := (str_ne_lit s "[hh:mm]" 'h' (by decide) (notMem_clean s 'h' hcl (by decide))).1
  have hlm : lookupTimeMapping s = none := by
    unfold lookupTimeMapping
    rw [List.find?_eq_none.mpr]
    · rfl
    · intro p hp
      fin_cases hp <;>
        simp only [decide_eq_true_eq] <;>
        intro he
      · exact (str_ne_lit s "morning" 'm' (by decide)
          (notMem_clean s 'm' hcl (by decide))).2 he
      · exact (str_ne_lit s "afternoon" 'a' (by decide)
          (notMem_clean s 'a' hcl (by decide))).2 he
      · exact (str_ne_lit s "evening" 'e' (by decide)
          (notMem_clean s 'e' hcl (by decide))).2 he
      · exact (str_ne_lit s "night" 'n' (by decide)
          (notMem_clean s 'n' hcl (by decide))).2 he
      · exact (str_ne_lit s "noon" 'n' (by decide)
          (notMem_clean s 'n' hcl (by decide))).2 he
      · exact (str_ne_lit s "midnight" 'm' (by decide)
          (notMem_clean s 'm' hcl (by decide))).2 he
  unfold normalize_time_str
  rw [if_neg (by simp [hp1, hp2, hp3]), hlm, if_pos h]

-- every output of the date normalizer has the strict date shape
theorem dateF_out (c : Clock) (hc : c.WF) (v : Val) (s : String)
    (h : normalize_date_field c v = some s) : isStrptimeDate s = true := by
  unfold normalize_date_field at h
  split at h
  · cases h
  · unfold normalize_date_str at h
    split at h
    · cases h
    · split at h
      · cases h
        exact hc.1
      · split at h
        · cases h
          exact hc.2.1
        · split at h
          · cases h
            exact hc.2.2.1
          · split at h
            · cases h
              exact hc.2.2.2.1
            · split at h
              · cases h
                exact hc.2.2.2.2
              · split at h
                next hcond =>
                  cases h
                  exact hcond
                next => cases h

-- every output of the time normalizer has the kept time shape
theorem timeF_out (v : Val) (s : String)
    (h : normalize_time_field v = some s) : isTimeShape s = true := by
  unfold normalize_time_field at h
  split at h
  · cases h
  · unfold normalize_time_str at h
    split at h
    · cases h
    · split at h
      next t heq =>
        cases h
        obtain ⟨pr, hfind, hsnd⟩ := Option.map_eq_some'.mp heq
        have hmem := List.mem_of_find?_eq_some hfind
        subst hsnd
        fin_cases hmem <;> decide
      next heq =>
        split at h
        next hcond =>
          cases h
          exact hcond
        next => cases h

-- the two re-normalization properties used for idempotence
theorem dateF_hf (c : Clock) (hc : c.WF) : ∀ v s, normalize_date_field c v = some s →
    normalize_date_field c (Val.vstr s) = some s ∧ s.isEmpty = false := by
  intro v s h
  have h1 := dateF_out c hc v s h
  exact ⟨dateF_fix c s h1, isEmpty_false_of_data s (strptime_ne_nil s h1)⟩

theorem timeF_hf : ∀ v s, normalize_time_field v = some s →
    normalize_time_field (Val.vstr s) = some s ∧ s.isEmpty = false := by
  intro v s h
  have h1 := timeF_out v s h
  exact ⟨timeF_fix s h1, isEmpty_false_of_data s (timeShape_ne_nil s h1)⟩

/-- C7: the Normalizer is idempotent: with the current date held fixed,
normalizing an already-normalized descriptor changes nothing. -/
theorem c7_normalize_idempotent (c : Clock) (hc : c.WF) (d : Desc) :
    normalize_parsed_command c (normalize_parsed_command c d) = normalize_parsed_command c d := by
  have hdf := dateF_hf c hc
  have hP : normPriority (normalize_parsed_command c d) = normalize_parsed_command c d := by
    unfold normalize_parsed_command
    rw [normPriority_normField_comm _ _ _ (by decide : ("due_time" : String) ≠ "priority"),
      normPriority_normField_comm _ _ _ (by decide : ("scheduled_time" : String) ≠ "priority"),
      normPriority_normField_comm _ _ _ (by decide : ("date_filter" : String) ≠ "priority"),
      normPriority_normField_comm _ _ _ (by decide : ("due_date" : String) ≠ "priority"),
      normPriority_normField_comm _ _ _ (by decide : ("scheduled_date" : String) ≠ "priority"),
      normPriority_idem]
  have h2 : normField "scheduled_date" (normalize_date_field c)
      (normalize_parsed_command c d) = normalize_parsed_command c d := by
    unfold normalize_parsed_command
    rw [normField_comm "scheduled_date" "due_time" _ _ _ (by decide),
      normField_comm "scheduled_date" "scheduled_time" _ _ _ (by decide),
      normField_comm "scheduled_date" "date_filter" _ _ _ (by decide),
      normField_comm "scheduled_date" "due_date" _ _ _ (by decide),
      normField_idem "scheduled_date" _ _ hdf]
  have h3 : normField "due_date" (normalize_date_field c)
      (normalize_parsed_command c d) = normalize_parsed_command c d := by
    unfold normalize_parsed_command
    rw [normField_comm "due_date" "due_time" _ _ _ (by decide),
      normField_comm "due_date" "scheduled_time" _ _ _ (by decide),
      normField_comm "due_date" "date_filter" _ _ _ (by decide),
      normField_idem "due_date" _ _ hdf]
  have h4 : normField "date_filter" (normalize_date_field c)
      (normalize_parsed_command c d) = normalize_parsed_command c d := by
    unfold normalize_parsed_command
    rw [normField_comm "date_filter" "due_time" _ _ _ (by decide),
      normField_comm "date_filter" "scheduled_time" _ _ _ (by decide),
      normField_idem "date_filter" _ _ hdf]
  have h5 : normField "scheduled_time" normalize_time_field
      (normalize_parsed_command c d) = normalize_parsed_command c d := by
    unfold normalize_parsed_command
    rw [normField_comm "scheduled_time" "due_time" _ _ _ (by decide),
      normField_idem "scheduled_time" _ _ timeF_hf]
  have h6 : normField "due_time" normalize_time_field
      (normalize_parsed_command c d) = normalize_parsed_command c d := by
    unfold normalize_parsed_command
    rw [normField_idem "due_time" _ _ timeF_hf]
  show normField "due_time" normalize_time_field
    (normField "scheduled_time" normalize_time_field
      (normField "date_filter" (normalize_date_field c)
        (normField "due_date" (normalize_date_field c)
          (normField "scheduled_date" (normalize_date_field c)
            (normPriority (normalize_parsed_command c d))))))
    = normalize_parsed_command c d
  rw [hP, h2, h3, h4, h5, h6]


theorem c7_normalize_idempotent_witness :
    normalize_parsed_command cW
        (normalize_parsed_command cW
          [("due_date", Val.vstr "Tomorrow"), ("priority", Val.vstr "high"),
           ("due_time", Val.vstr " NOON "), ("scheduled_date", Val.vstr "junk")]) =
      normalize_parsed_command cW
        [("due_date", Val.vstr "Tomorrow"), ("priority", Val.vstr "high"),
         ("due_time", Val.vstr " NOON "), ("scheduled_date", Val.vstr "junk")] :=
  c7_normalize_idempotent cW (by decide)
    [("due_date", Val.vstr "Tomorrow"), ("priority", Val.vstr "high"),
     ("due_time", Val.vstr " NOON "), ("scheduled_date", Val.vstr "junk")]

/-- C6 counterexample: the claim requires every kept date to have the shape
ISO YYYY-MM-DD, but the strptime check of the code also accepts one-digit
month or day: the descriptor with due_date 2024-1-5 is returned unchanged,
and 2024-1-5 is not of the shape YYYY-MM-DD. -/
theorem c6_counterexample :
    normalize_parsed_command cW [("due_date", Val.vstr "2024-1-5")]
      = [("due_date", Val.vstr "2024-1-5")] ∧
    specIsoYmdShape "2024-1-5" = false := by decide

/-- C6 amended: the Normalizer is total, and in its output each date field
is absent or holds a non-empty string accepted by the strict
percent-Y-percent-m-percent-d parse (four-digit year, one-or-two-digit month
and day forming a real calendar date), each time field is absent or holds a
non-empty string of the shape one-or-two-digit hour, colon, two-digit
minute; dropped fields have their key removed entirely, and every key other
than the six recognized ones is left untouched. -/
theorem c6_amended_field_shapes (c : Clock) (hc : c.WF) (d : Desc) :
    (∀ k ∈ dateKeys, fieldOk (lookupKey k (normalize_parsed_command c d)) isStrptimeDate) ∧
    (∀ k ∈ timeKeys, fieldOk (lookupKey k (normalize_parsed_command c d)) isTimeShape) ∧
    (∀ k, k ∉ normalizedKeys →
      lookupKey k (normalize_parsed_command c d) = lookupKey k d) := by
  refine ⟨?_, ?_, ?_⟩
  · intro k hk
    fin_cases hk
    · have hl : lookupKey "scheduled_date" (normalize_parsed_command c d)
          = lookupKey "scheduled_date"
            (normField "scheduled_date" (normalize_date_field c) (normPriority d)) := by
        unfold normalize_parsed_command
        rw [lookupKey_normField_ne "scheduled_date" "due_time" _ _ (by decide),
          lookupKey_normField_ne "scheduled_date" "scheduled_time" _ _ (by decide),
          lookupKey_normField_ne "scheduled_date" "date_filter" _ _ (by decide),
          lookupKey_normField_ne "scheduled_date" "due_date" _ _ (by decide)]
      rcases normField_out "scheduled_date" (normalize_date_field c) (normPriority d)
        with h | ⟨v, s, _, hfv, hsne, heq⟩
      · left
        rw [hl, h]
      · right
        exact ⟨s, by rw [hl, heq], dateF_out c hc v s hfv,
          fun he => by rw [he] at hsne; exact absurd hsne (by decide)⟩
    · have hl : lookupKey "due_date" (normalize_parsed_command c d)
          = lookupKey "due_date"
            (normField "due_date" (normalize_date_field c)
              (normField "scheduled_date" (normalize_date_field c) (normPriority d))) := by
        unfold normalize_parsed_command
        rw [lookupKey_normField_ne "due_date" "due_time" _ _ (by decide),
          lookupKey_normField_ne "due_date" "scheduled_time" _ _ (by decide),
          lookupKey_normField_ne "due_date" "date_filter" _ _ (by decide)]
      rcases normField_out "due_date" (normalize_date_field c)
          (normField "scheduled_date" (normalize_date_field c) (normPriority d))
        with h | ⟨v, s, _, hfv, hsne, heq⟩
      · left
        rw [hl, h]
      · right
        exact ⟨s, by rw [hl, heq], dateF_out c hc v s hfv,
          fun he => by rw [he] at hsne; exact absurd hsne (by decide)⟩
    · have hl : lookupKey "date_filter" (normalize_parsed_command c d)
          = lookupKey "date_filter"
            (normField "date_filter" (normalize_date_field c)
              (normField "due_date" (normalize_date_field c)
                (normField "scheduled_date" (normalize_date_field c)
                  (normPriority d)))) := by
        unfold normalize_parsed_command
        rw [lookupKey_normField_ne "date_filter" "due_time" _ _ (by decide),
          lookupKey_normField_ne "date_filter" "scheduled_time" _ _ (by decide)]
      rcases normField_out "date_filter" (normalize_date_field c)
          (normField "due_date" (normalize_date_field c)
            (normField "scheduled_date" (normalize_date_field c) (normPriority d)))
        with h | ⟨v, s, _, hfv, hsne, heq⟩
      · left
        rw [hl, h]
      · right
        exact ⟨s, by rw [hl, heq], dateF_out c hc v s hfv,
          fun he => by rw [he] at hsne; exact absurd hsne (by decide)⟩
  · intro k hk
    fin_cases hk
    · have hl : lookupKey "scheduled_time" (normalize_parsed_command c d)
          = lookupKey "scheduled_time"
            (normField "scheduled_time" normalize_time_field
              (normField "date_filter" (normalize_date_field c)
                (normField "due_date" (normalize_date_field c)
                  (normField "scheduled_date" (normalize_date_field c)
                    (normPriority d))))) := by
        unfold normalize_parsed_command
        rw [lookupKey_normField_ne "scheduled_time" "due_time" _ _ (by decide)]
      rcases normField_out "scheduled_time" normalize_time_field
          (normField "date_filter" (normalize_date_field c)
            (normField "due_date" (normalize_date_field c)
              (normField "scheduled_date" (normalize_date_field c) (normPriority d))))
        with h | ⟨v, s, _, hfv, hsne, heq⟩
      · left
        rw [hl, h]
      · right
        exact ⟨s, by rw [hl, heq], timeF_out v s hfv,
          fun he => by rw [he] at hsne; exact absurd hsne (by decide)⟩
    · rcases normField_out "due_time" normalize_time_field
          (normField "scheduled_time" normalize_time_field
            (normField "date_filter" (normalize_date_field c)
              (normField "due_date" (normalize_date_field c)
                (normField "scheduled_date" (normalize_date_field c)
                  (normPriority d)))))
        with h | ⟨v, s, _, hfv, hsne, heq⟩
      · left
        exact h
      · right
        exact ⟨s, heq, timeF_out v s hfv,
          fun he => by rw [he] at hsne; exact absurd hsne (by decide)⟩
  · intro k hk
    simp only [normalizedKeys, List.mem_cons, List.not_mem_nil, or_false, not_or] at hk
    obtain ⟨hk1, hk2, hk3, hk4, hk5, hk6⟩ := hk
    unfold normalize_parsed_command
    rw [lookupKey_normField_ne k "due_time" _ _ hk6,
      lookupKey_normField_ne k "scheduled_time" _ _ hk5,
      lookupKey_normField_ne k "date_filter" _ _ hk4,
      lookupKey_normField_ne k "due_date" _ _ hk3,
      lookupKey_normField_ne k "scheduled_date" _ _ hk2,
      lookupKey_normPriority_ne k d hk1]

theorem c6_amended_field_shapes_witness :
    (∀ k ∈ dateKeys,
      fieldOk
        (lookupKey k (normalize_parsed_command cW
          [("due_date", Val.vstr "today"), ("due_time", Val.vstr "oops"),
           ("extra", Val.vint 3)]))
        isStrptimeDate) ∧
    (∀ k ∈ timeKeys,
      fieldOk
        (lookupKey k (normalize_parsed_command cW
          [("due_date", Val.vstr "today"), ("due_time", Val.vstr "oops"),
           ("extra", Val.vint 3)]))
        isTimeShape) ∧
    (∀ k, k ∉ normalizedKeys →
      lookupKey k (normalize_parsed_command cW
          [("due_date", Val.vstr "today"), ("due_time", Val.vstr "oops"),
           ("extra", Val.vint 3)]) =
        lookupKey k
          [("due_date", Val.vstr "today"), ("due_time", Val.vstr "oops"),
           ("extra", Val.vint 3)]) :=
  c6_amended_field_shapes cW (by decide)
    [("due_date", Val.vstr "today"), ("due_time", Val.vstr "oops"), ("extra", Val.vint 3)]

theorem c4_create_initial_state_witness :
    ∃ tk,
      execute_action [("action", Val.vstr "create"), ("task_title", Val.vstr "Test")] 7 [] =
        ({ success := true, message := createMsg tk, action := some "create",
           task_id := some tk.id }, [] ++ [tk]) ∧
      tk.state = TaskState.NOT_STARTED ∧ tk.title = trimS "Test" ∧ tk.description = none ∧
      tk.category = none ∧ tk.scheduled_date = none ∧ tk.scheduled_time = none ∧
      tk.due_date = none ∧ tk.due_time = none ∧ tk.reminder_time = none :=
  (c4_create_initial_state [] { title := "W" } 7 [("action", Val.vstr "create")] "Test"
    (by decide) (by decide)).2.2

-- ===== C2: the Normalizer is the identity on Pattern Interpreter output =====

theorem norm_chat_fix (c : Clock) (m : String) (conf : Rat) :
    normalize_parsed_command c (chatDesc m conf) = chatDesc m conf := rfl

theorem norm_create6_fix (c : Clock) (t : String) :
    normalize_parsed_command c
      [("action", Val.vstr "create"), ("task_title", Val.vstr t),
       ("confidence", Val.vfloat 0.8)] =
    [("action", Val.vstr "create"), ("task_title", Val.vstr t),
     ("confidence", Val.vfloat 0.8)] := rfl

theorem norm_us_fix (c : Clock) (t ns : String) (conf : Rat) :
    normalize_parsed_command c
      [("action", Val.vstr "update_state"), ("task_title", Val.vstr t),
       ("new_state", Val.vstr ns), ("confidence", Val.vfloat conf)] =
    [("action", Val.vstr "update_state"), ("task_title", Val.vstr t),
     ("new_state", Val.vstr ns), ("confidence", Val.vfloat conf)] := rfl

theorem norm_del_fix (c : Clock) (t : String) :
    normalize_parsed_command c
      [("action", Val.vstr "delete"), ("task_title", Val.vstr t),
       ("confidence", Val.vfloat 0.8)] =
    [("action", Val.vstr "delete"), ("task_title", Val.vstr t),
     ("confidence", Val.vfloat 0.8)] := rfl

theorem dv_le_9 (ch : Char) (h : ch.isDigit = true) : dv ch ≤ 9 := by
  have hb : 48 ≤ ch.toNat ∧ ch.toNat ≤ 57 := by simpa [Char.isDigit] using h
  unfold dv
  omega

theorem searchAt_some {α : Type} (m : List Char → Option α) (l : List Char) (r : α)
    (h : searchAt m l = some r) : ∃ l', m l' = some r := by
  induction l with
  | nil => exact ⟨[], h⟩
  | cons a t ih =>
    unfold searchAt at h
    split at h
    next heq => exact ⟨a :: t, heq.trans h⟩
    next => exact ih h

theorem matchSpec2_bound (l : List Char) (h m : Nat) (rest : List Char)
    (he : matchSpec2 l = some (h, m, rest)) : h ≤ 99 ∧ m ≤ 99 := by
  unfold matchSpec2 at he
  split at he
  next c1 c2 c3 c4 r =>
    split at he
    next hd =>
      simp only [Bool.and_eq_true] at hd
      obtain ⟨⟨⟨h1, h2⟩, h3⟩, h4⟩ := hd
      cases he
      have := dv_le_9 c1 h1
      have := dv_le_9 c2 h2
      have := dv_le_9 c3 h3
      have := dv_le_9 c4 h4
      omega
    next => cases he
  next => cases he

theorem matchSpec1_bound (l : List Char) (h m : Nat) (rest : List Char)
    (he : matchSpec1 l = some (h, m, rest)) : h ≤ 99 ∧ m ≤ 99 := by
  unfold matchSpec1 at he
  split at he
  next c1 c3 c4 r =>
    split at he
    next hd =>
      simp only [Bool.and_eq_true] at hd
      obtain ⟨⟨h1, h3⟩, h4⟩ := hd
      cases he
      have := dv_le_9 c1 h1
      have := dv_le_9 c3 h3
      have := dv_le_9 c4 h4
      omega
    next => cases he
  next => cases he

theorem matchSpecAt_bound (l : List Char) (h m : Nat) (ap : Option Bool)
    (he : matchSpecAt l = some (h, m, ap)) : h ≤ 99 ∧ m ≤ 99 := by
  unfold matchSpecAt at he
  split at he
  next h2 m2 r2 heq =>
    cases he
    exact matchSpec2_bound l _ _ r2 heq
  next heq2 =>
    split at he
    next h1 m1 r1 heq =>
      cases he
      exact matchSpec1_bound l _ _ r1 heq
    next => cases he

theorem matchHourAPAt_bound (l : List Char) (h : Nat) (pm : Bool)
    (he : matchHourAPAt l = some (h, pm)) : h ≤ 99 := by
  unfold matchHourAPAt at he
  split at he
  · cases he
  next c1 rest1 =>
    split at he
    next hd1 =>
      have hb1 := dv_le_9 c1 hd1
      split at he
      · cases he
      next c2 rest2 =>
        split at he
        next hd2 =>
          have hb2 := dv_le_9 c2 hd2
          split at he
          next pm2 heq =>
            simp only [Option.some.injEq, Prod.mk.injEq] at he
            obtain ⟨hh, _⟩ := he
            omega
          next =>
            split at he
            next pm2 heq =>
              simp only [Option.some.injEq, Prod.mk.injEq] at he
              obtain ⟨hh, _⟩ := he
              omega
            next => cases he
        next =>
          split at he
          next pm2 heq =>
            simp only [Option.some.injEq, Prod.mk.injEq] at he
            obtain ⟨hh, _⟩ := he
            omega
          next => cases he
    next => cases he

theorem adjustHour_bound (h : Nat) (ap : Option Bool) (hh : h ≤ 99) :
    adjustHour h ap ≤ 99 := by
  unfold adjustHour
  split_ifs with h1 h2
  · simp only [Bool.and_eq_true, decide_eq_true_eq] at h1
    omega
  · omega
  · omega

theorem pad2_data (n : Nat) (h : n ≤ 99) :
    (pad2 n).data = [Nat.digitChar (n / 10), Nat.digitChar (n % 10)] := by
  unfold pad2
  rw [if_pos (by omega)]

theorem digitChar_isDigit (k : Nat) (h : k ≤ 9) : (Nat.digitChar k).isDigit = true := by
  have hall : ∀ m, m < 10 → (Nat.digitChar m).isDigit = true := by decide
  exact hall k (by omega)

theorem timeShape_hm (h m : Nat) (hh : h ≤ 99) (hm : m ≤ 99) :
    isTimeShape (pad2 h ++ ":" ++ pad2 m) = true := by
  have hdata : (pad2 h ++ ":" ++ pad2 m).data
      = [Nat.digitChar (h / 10), Nat.digitChar (h % 10), ':',
         Nat.digitChar (m / 10), Nat.digitChar (m % 10)] := by
    rw [String.data_append, String.data_append, pad2_data h hh, pad2_data m hm]
    rfl
  unfold isTimeShape
  rw [hdata]
  simp [digitChar_isDigit (h / 10) (by omega), digitChar_isDigit (h % 10) (by omega),
    digitChar_isDigit (m / 10) (by omega), digitChar_isDigit (m % 10) (by omega)]

theorem timeShape_h00 (h : Nat) (hh : h ≤ 99) :
    isTimeShape (pad2 h ++ ":00") = true := by
  have hdata : (pad2 h ++ ":00").data
      = [Nat.digitChar (h / 10), Nat.digitChar (h % 10), ':', '0', '0'] := by
    rw [String.data_append, pad2_data h hh]
    rfl
  unfold isTimeShape
  rw [hdata]
  simp [digitChar_isDigit (h / 10) (by omega), digitChar_isDigit (h % 10) (by omega)]

theorem timeExtract_shape (cl : List Char) (tv : String)
    (h : timeExtract cl = some tv) : isTimeShape tv = true := by
  unfold timeExtract at h
  split at h
  next hh mm ap heq =>
    cases h
    obtain ⟨l', hl'⟩ := searchAt_some _ cl _ heq
    obtain ⟨hb1, hb2⟩ := matchSpecAt_bound l' hh mm ap hl'
    exact timeShape_hm _ mm (adjustHour_bound hh ap hb1) hb2
  next heq1 =>
    split at h
    next hh pm heq =>
      cases h
      obtain ⟨l', hl'⟩ := searchAt_some _ cl _ heq
      exact timeShape_h00 _ (adjustHour_bound hh (some pm) (matchHourAPAt_bound l' hh pm hl'))
    next heq2 =>
      by_cases h1 : containsL "morning".data cl = true
      · rw [if_pos h1] at h
        cases h
        decide
      · rw [if_neg h1] at h
        by_cases h2 : containsL "afternoon".data cl = true
        · rw [if_pos h2] at h
          cases h
          decide
        · rw [if_neg h2] at h
          by_cases h3 : containsL "evening".data cl = true
          · rw [if_pos h3] at h
            cases h
            decide
          · rw [if_neg h3] at h
            by_cases h4 : containsL "night".data cl = true
            · rw [if_pos h4] at h
              cases h
              decide
            · rw [if_neg h4] at h
              cases h
      
theorem extractPriority_map (cl : List Char) :
    lookupPriorityMap (lowerS (extractPriority cl)) = some (extractPriority cl) := by
  unfold extractPriority
  split_ifs <;> decide


theorem normalize_fixed_of (c : Clock) (d : Desc)
    (hP : normPriority d = d)
    (h1 : normField "scheduled_date" (normalize_date_field c) d = d)
    (h2 : normField "due_date" (normalize_date_field c) d = d)
    (h3 : normField "date_filter" (normalize_date_field c) d = d)
    (h4 : normField "scheduled_time" normalize_time_field d = d)
    (h5 : normField "due_time" normalize_time_field d = d) :
    normalize_parsed_command c d = d := by
  unfold normalize_parsed_command
  rw [hP, h1, h2, h3, h4, h5]

theorem norm_fix_schedule (c : Clock) (hc : c.WF) (cl : List Char) :
    normalize_parsed_command c (scheduleBranch c cl) = scheduleBranch c cl := by
  obtain ⟨hcd1, hcd2, _, _, _⟩ := hc
  unfold scheduleBranch
  cases ht : timeExtract cl <;>
    cases htd : containsL "today".data cl <;>
    cases htm : containsL "tomorrow".data cl <;>
    cases hr : containsL "remind".data cl <;>
    simp only [Bool.false_eq_true, eq_self_iff_true, if_true, if_false,
      List.cons_append, List.nil_append, List.append_nil] <;>
    refine normalize_fixed_of c _ ?_ ?_ ?_ ?_ ?_ ?_ <;>
    first
      | rfl
      | (refine normPriority_fixed _ (extractPriority cl) ?_ (extractPriority_map cl)
         simp
         done)
      | (refine normField_fixed _ _ _ _ ?_ (timeF_fix _ (timeExtract_shape cl _ ht))
            (isEmpty_false_of_data _ (timeShape_ne_nil _ (timeExtract_shape cl _ ht)))
         simp
         done)
      | (refine normField_fixed _ _ _ _ ?_ (dateF_fix c _ hcd1)
            (isEmpty_false_of_data _ (strptime_ne_nil _ hcd1))
         simp
         done)
      | (refine normField_fixed _ _ _ _ ?_ (dateF_fix c _ hcd2)
            (isEmpty_false_of_data _ (strptime_ne_nil _ hcd2))
         simp
         done)

theorem norm_fix_list (c : Clock) (hc : c.WF) (cl : List Char) :
    normalize_parsed_command c (listBranch c cl) = listBranch c cl := by
  obtain ⟨hcd1, hcd2, _, _, _⟩ := hc
  unfold listBranch
  cases h1 : (containsL "today".data cl || containsL "today\x27s".data cl) <;>
    cases h2 : (containsL "tomorrow".data cl || containsL "tomorrow\x27s".data cl) <;>
    cases h3 : containsL "completed".data cl <;>
    cases h4 : containsL "progress".data cl <;>
    cases h5 : (containsL "pending".data cl || containsL "not started".data cl) <;>
    simp only [Bool.false_eq_true, eq_self_iff_true, if_true, if_false,
      List.cons_append, List.nil_append, List.append_nil] <;>
    refine normalize_fixed_of c _ ?_ ?_ ?_ ?_ ?_ ?_ <;>
    first
      | rfl
      | (refine normField_fixed _ _ _ _ ?_ (dateF_fix c _ hcd1)
            (isEmpty_false_of_data _ (strptime_ne_nil _ hcd1))
         simp
         done)
      | (refine normField_fixed _ _ _ _ ?_ (dateF_fix c _ hcd2)
            (isEmpty_false_of_data _ (strptime_ne_nil _ hcd2))
         simp
         done)

theorem norm_startResult (c : Clock) (cl : List Char) (d : Desc)
    (h : startResult cl = some d) : normalize_parsed_command c d = d := by
  unfold startResult at h
  split at h
  · rw [Option.map_eq_some'] at h
    obtain ⟨g, hg, hd⟩ := h
    subst hd
    rfl
  · exact Option.noConfusion h

theorem norm_completeResult (c : Clock) (cl : List Char) (d : Desc)
    (h : completeResult cl = some d) : normalize_parsed_command c d = d := by
  unfold completeResult at h
  split at h
  · rw [Option.map_eq_some'] at h
    obtain ⟨g, hg, hd⟩ := h
    subst hd
    rfl
  · exact Option.noConfusion h

theorem norm_deleteResult (c : Clock) (cl : List Char) (d : Desc)
    (h : deleteResult cl = some d) : normalize_parsed_command c d = d := by
  unfold deleteResult at h
  rw [Option.map_eq_some'] at h
  obtain ⟨g, hg, hd⟩ := h
  subst hd
  rfl

theorem norm_fix_body (c : Clock) (hc : c.WF) (cl : List Char) :
    normalize_parsed_command c (patternsBody c cl) = patternsBody c cl := by
  unfold patternsBody
  split_ifs with h1 h2 h3 h4 h5
  · rfl
  · rfl
  · exact norm_fix_schedule c hc cl
  · exact norm_fix_list c hc cl
  · rfl
  · cases hce : createExtract cl with
    | some t => rfl
    | none =>
      cases hs : startResult cl with
      | some d => exact norm_startResult c cl d hs
      | none =>
        cases hco : completeResult cl with
        | some d => exact norm_completeResult c cl d hco
        | none =>
          cases hde : deleteResult cl with
          | some d => exact norm_deleteResult c cl d hde
          | none => rfl

theorem norm_fix_patterns (c : Clock) (hc : c.WF) (command : String) :
    normalize_parsed_command c (parse_with_patterns c command)
      = parse_with_patterns c command := by
  unfold parse_with_patterns
  exact norm_fix_body c hc (trimL (lowerL command.data))

/-- C2: the descriptor handed to the Dispatcher when no LLM client is
configured (the raw Pattern Interpreter result) coincides with the
descriptor of the LLM-failure fallback path (the Pattern Interpreter result
passed through the Normalizer): for every well-formed clock and every
command text the Normalizer is the identity on the Pattern Interpreter's
output, so both configurations hand the Dispatcher the same descriptor. -/
theorem c2_no_llm_matches_fallback (c : Clock) (hc : c.WF) (command : String) :
    gemini_fallback_parse c command = parse_command_no_llm c command := by
  unfold gemini_fallback_parse parse_command_no_llm
  exact norm_fix_patterns c hc command

theorem c2_no_llm_matches_fallback_witness :
    Clock.WF cW ∧
      gemini_fallback_parse cW "schedule meeting tomorrow at 3pm"
        = parse_command_no_llm cW "schedule meeting tomorrow at 3pm" :=
  ⟨by decide, c2_no_llm_matches_fallback cW (by decide) "schedule meeting tomorrow at 3pm"⟩

end TaskApp
